import Mathlib

/-! # Digital Wallet: users, user directory and the menu state machine

A shallow embedding of `Cpp/Digital_Wallet_Project` (`user.cpp`, `users_list.cpp`,
`menu.cpp`, `app.cpp`, `main.cpp`).

* The balance type `α` stands for the source's `double`.  Its `+`, `-`, `<` and the
  conversion from `int` are those of the parameter, so nothing is assumed about the
  arithmetic beyond what each theorem asks for in its instance arguments.  `Double` is
  the instance with infinities and NaN, for what turns on them.
* `std::cin` is an `InputSource`: three extraction operations over a stream state `σ`,
  together with the width the terminal reports.
* Terminal output (`printMessage`, `std::cout`) changes no program state and is left
  out.  Of `printBanner` what matters is kept: whether the call returns or throws
  `std::length_error`, which for the login banner depends on the username.  The banner
  of the Welcome screen has a fixed text of 23 characters and returns on every terminal
  of at least 27 columns.
-/

namespace DigitalWallet

variable {α σ : Type}

/-! ## user.h / user.cpp -/

/-- The class `User`: `username`, `password`, `balance`. -/
structure User (α : Type) where
  username : String
  password : String
  balance : α
deriving DecidableEq, Repr

namespace User

/-- The defaulted constructor `User()`: empty strings, `balance = 0.0`. -/
def new [Zero α] : User α := ⟨"", "", 0⟩

/-- The member `void User::set_username(const std::string& uname)`. -/
def set_username (u : User α) (uname : String) : User α := { u with username := uname }

/-- The member `void User::set_userpasswd(const std::string& passwd)`. -/
def set_userpasswd (u : User α) (passwd : String) : User α := { u with password := passwd }

/-- The member `std::string User::get_username() const`. -/
def get_username (u : User α) : String := u.username

/-- The member `std::string User::get_userpasswd() const`. -/
def get_userpasswd (u : User α) : String := u.password

/-- The member `double User::get_balance() const`. -/
def get_balance (u : User α) : α := u.balance

/-- The member `void User::deposit(double amount) { balance += amount; }`. -/
def deposit [Add α] (u : User α) (amount : α) : User α :=
  { u with balance := u.balance + amount }

/-- The member `bool User::check_credentials(const User& other) const`. -/
def check_credentials (u other : User α) : Bool :=
  u.username == other.username && u.password == other.password

/-- The member `bool User::operator==(const User& other) const`. -/
def operator_eq (u other : User α) : Bool :=
  u.username == other.username && u.password == other.password

/-- The member `void User::withdraw(double amount)`: returns early, leaving the object
as it is, when `amount > balance`; otherwise `balance -= amount`. -/
def withdraw [Sub α] [LT α] [DecidableRel (α := α) (· < ·)] (u : User α) (amount : α) :
    User α :=
  if amount > u.balance then u
  else { u with balance := u.balance - amount }

end User

/-! ## The type `double` -/

/-- The values of a `double` as IEEE 754 compares and subtracts them: a number, plus or
minus infinity, or NaN.  Numbers are rationals and the difference of two numbers is
their exact difference: rounding, which keeps the sign of a difference, is not
modelled. -/
inductive Double where
  | num (x : ℚ)
  | pinf
  | ninf
  | nan
deriving DecidableEq

namespace Double

/-- The comparison `a < b` of two `double`s: false whenever one of them is NaN. -/
def lt : Double → Double → Bool
  | num a, num b => decide (a < b)
  | num _, pinf => true
  | ninf, num _ => true
  | ninf, pinf => true
  | _, _ => false

/-- The comparison `a <= b` of two `double`s: false whenever one of them is NaN. -/
def le : Double → Double → Bool
  | num a, num b => decide (a ≤ b)
  | num _, pinf => true
  | ninf, num _ => true
  | ninf, pinf => true
  | pinf, pinf => true
  | ninf, ninf => true
  | _, _ => false

/-- The difference `a - b` of two `double`s: NaN when one of them is NaN and for an
infinity minus itself. -/
def sub : Double → Double → Double
  | nan, _ => nan
  | _, nan => nan
  | pinf, pinf => nan
  | ninf, ninf => nan
  | pinf, _ => pinf
  | ninf, _ => ninf
  | num _, pinf => ninf
  | num _, ninf => pinf
  | num a, num b => num (a - b)

instance : Zero Double := ⟨num 0⟩

instance : LT Double := ⟨fun a b => lt a b = true⟩

instance : LE Double := ⟨fun a b => le a b = true⟩

instance : Sub Double := ⟨sub⟩

instance : DecidableRel (α := Double) (· < ·) := fun a b =>
  inferInstanceAs (Decidable (lt a b = true))

instance : DecidableRel (α := Double) (· ≤ ·) := fun a b =>
  inferInstanceAs (Decidable (le a b = true))

end Double

/-! ## users_list.h / users_list.cpp -/

/-- The class `UsersList`: the vector `users` and the bound `max_users`. -/
structure UsersList (α : Type) where
  users : List (User α)
  max_users : Nat
deriving DecidableEq, Repr

namespace UsersList

/-- The constructor `UsersList::UsersList(size_t max)`: an empty vector. -/
def new (max : Nat) : UsersList α := ⟨[], max⟩

/-- The member `bool UsersList::add_user(const User& user)`: the returned flag and the
list afterwards. -/
def add_user (l : UsersList α) (user : User α) : Bool × UsersList α :=
  if l.users.length ≥ l.max_users then (false, l)
  else (true, { l with users := l.users ++ [user] })

/-- The loop of `search_users`: `for (const auto& u : users) if (u == match) return u;`
and `std::nullopt` after the last element. -/
def search_loop (match_ : User α) : List (User α) → Option (User α)
  | [] => none
  | u :: rest => if u.operator_eq match_ then some u else search_loop match_ rest

/-- The member `std::optional<User> UsersList::search_users(const User& match) const`. -/
def search_users (l : UsersList α) (match_ : User α) : Option (User α) :=
  search_loop match_ l.users

/-- The member `size_t UsersList::size() const`. -/
def size (l : UsersList α) : Nat := l.users.length

/-- A sequence of `add_user` calls issued one after the other on the same list: the
flags returned, in call order, and the list after the last call. -/
def add_users (l : UsersList α) : List (User α) → List Bool × UsersList α
  | [] => ([], l)
  | u :: us =>
    let r := l.add_user u
    let rest := add_users r.2 us
    (r.1 :: rest.1, rest.2)

/-- The list after the first `k` of the calls `add_user us[0]`, `add_user us[1]`, ...
issued on an empty `UsersList(C)`. -/
def after_calls (C : Nat) (us : List (User α)) (k : Nat) : UsersList α :=
  ((new C).add_users (us.take k)).2

end UsersList

/-! ## menu.h / menu.cpp -/

/-- The enumeration `enum class MenuReturnState { Continue, ERROR, Exit }`. -/
inductive MenuReturnState where
  | Continue
  | ERROR
  | Exit
deriving DecidableEq, Repr

/-- The record `struct MenuState { std::optional<User> curr_user; MenuReturnState rt_state; }`. -/
structure MenuState (α : Type) where
  curr_user : Option (User α)
  rt_state : MenuReturnState
deriving DecidableEq, Repr

/-- The dynamic type of the object `MenuManager::menu_type` points to: one of the five
classes derived from `Menu`.  The screen objects hold only references to the manager
and to the users list, so the class tag is all of their state. -/
inductive Menu where
  | WelcomeMenu
  | LoginMenu
  | SignUp
  | UserMenu
  | PayPillsMenu
deriving DecidableEq, Repr

/-- The extraction operations the screens use on `std::cin`, over a stream state `σ`:
`std::cin >> std::string`, `std::cin >> int` and `std::cin >> double`.  Each yields the
value read and the stream afterwards.  `terminal_width` is what `getTerminalWidth()`
of `print_banner.h` returns at that point (the column count from `ioctl`). -/
structure InputSource (σ α : Type) where
  read_string : σ → String × σ
  read_int : σ → Int × σ
  read_double : σ → α × σ
  terminal_width : σ → Int

/-! ## print_banner.h -/

/-- The function `printBanner(const std::string& message, char fill)` for the width
`getTerminalWidth()` returned: `true` when the call returns, `false` when it throws
`std::length_error`.  It builds `std::string(width - 2, fill)` for the borders and
`std::string(padding, fill)`, `std::string(width - 2 - padding - size - 2, fill)` for
the message line; each of these throws when its `int` count is negative, since the
count is converted to `size_t`.  `padding` is clamped at zero, the last count is not.
`message.size()` is taken to be below `2^31`. -/
def printBanner (terminal_width : Int) (message : String) : Bool :=
  let width := if terminal_width ≤ 0 then 80 else terminal_width
  let size : Int := message.utf8ByteSize
  let padding := (width - 2 - size - 2).tdiv 2
  let padding := if padding < 0 then 0 else padding
  decide (0 ≤ width - 2) && decide (0 ≤ padding) &&
    decide (0 ≤ width - 2 - padding - size - 2)

/-- The class `MenuManager` with the objects it refers to held by value: the active
screen `menu_type`, the `MenuState` behind `state_ref`, the `UsersList` behind
`curr_users` (the same list every screen's `curr_list` refers to), and the state of
`std::cin`, which every `display` reads from. -/
structure MenuManager (σ α : Type) where
  menu_type : Menu
  state_ref : MenuState α
  curr_users : UsersList α
  cin : σ
deriving DecidableEq, Repr

namespace MenuManager

/-- The constructor `MenuManager::MenuManager(MenuState& state, UsersList* u_list)`:
the active screen is a new `WelcomeMenu`. -/
def new (state : MenuState α) (u_list : UsersList α) (cin : σ) : MenuManager σ α :=
  ⟨Menu.WelcomeMenu, state, u_list, cin⟩

/-- The member `void MenuManager::set_menu(Menu* menu)`. -/
def set_menu (m : MenuManager σ α) (menu : Menu) : MenuManager σ α :=
  { m with menu_type := menu }

end MenuManager

/-- The method `MenuReturnState WelcomeMenu::display(MenuState& state)`. -/
def WelcomeMenu.display (io : InputSource σ α) (m : MenuManager σ α) :
    MenuReturnState × MenuManager σ α :=
  let query := (io.read_string m.cin).1
  let m := { m with cin := (io.read_string m.cin).2 }
  if query = "L" ∨ query = "l" then
    (MenuReturnState.Continue, m.set_menu Menu.LoginMenu)
  else if query = "S" ∨ query = "s" then
    (MenuReturnState.Continue, m.set_menu Menu.SignUp)
  else if query = "Q" ∨ query = "q" then
    (MenuReturnState.Exit, m)
  else
    (MenuReturnState.ERROR, m)

/-- The test `!choice.empty() && (choice[0] == 'q' || choice[0] == 'Q')` of
`LoginMenu::display`. -/
def LoginMenu.quit_chosen (choice : String) : Bool :=
  match choice.data with
  | [] => false
  | c :: _ => c == 'q' || c == 'Q'

/-- The method `MenuReturnState LoginMenu::display(MenuState& state)`.  When a user is
found, `state.curr_user` is assigned and `printBanner("Welcome " + username)` is called
before `set_menu`; when that call throws, the exception leaves `display` (nothing
catches it up to `main`) and the result is `none`. -/
def LoginMenu.display [Zero α] (io : InputSource σ α) (m : MenuManager σ α) :
    Option (MenuReturnState × MenuManager σ α) :=
  let user_name := (io.read_string m.cin).1
  let cin := (io.read_string m.cin).2
  let user_passwd := (io.read_string cin).1
  let cin := (io.read_string cin).2
  let m := { m with cin := cin }
  let user := ((User.new : User α).set_username user_name).set_userpasswd user_passwd
  match m.curr_users.search_users user with
  | some result =>
    let m := { m with state_ref := { m.state_ref with curr_user := some result } }
    if printBanner (io.terminal_width m.cin) ("Welcome " ++ result.get_username) then
      some (MenuReturnState.Continue, m.set_menu Menu.UserMenu)
    else
      none
  | none =>
    let choice := (io.read_string m.cin).1
    let m := { m with cin := (io.read_string m.cin).2 }
    if LoginMenu.quit_chosen choice then
      let m := { m with state_ref := { m.state_ref with curr_user := none } }
      some (MenuReturnState.Continue, m.set_menu Menu.WelcomeMenu)
    else
      some (MenuReturnState.Continue, m)

/-- The method `MenuReturnState SignUp::display(MenuState& state)`.  `init_balance` is
an `int`, converted to `double` at the call of `deposit`. -/
def SignUp.display [Zero α] [Add α] [IntCast α] (io : InputSource σ α)
    (m : MenuManager σ α) : MenuReturnState × MenuManager σ α :=
  let user_name := (io.read_string m.cin).1
  let cin := (io.read_string m.cin).2
  let user_passwd := (io.read_string cin).1
  let cin := (io.read_string cin).2
  let user_confirm_passwd := (io.read_string cin).1
  let cin := (io.read_string cin).2
  let m := { m with cin := cin }
  if user_passwd ≠ user_confirm_passwd then
    (MenuReturnState.Continue, m.set_menu Menu.SignUp)
  else
    let init_balance := (io.read_int m.cin).1
    let m := { m with cin := (io.read_int m.cin).2 }
    let new_user :=
      (((User.new : User α).set_username user_name).set_userpasswd user_passwd).deposit
        (init_balance : α)
    let m := { m with curr_users := (m.curr_users.add_user new_user).2 }
    (MenuReturnState.Continue, m.set_menu Menu.LoginMenu)

/-- The method `MenuReturnState UserMenu::display(MenuState& state)`. -/
def UserMenu.display [Zero α] [Add α] [Sub α] [LT α] [DecidableRel (α := α) (· < ·)]
    (io : InputSource σ α) (m : MenuManager σ α) : MenuReturnState × MenuManager σ α :=
  match m.state_ref.curr_user with
  | none => (MenuReturnState.ERROR, m)
  | some user =>
    let query := (io.read_string m.cin).1
    let m := { m with cin := (io.read_string m.cin).2 }
    if query = "1" then
      (MenuReturnState.Continue, m)
    else if query = "2" then
      let value := (io.read_double m.cin).1
      let m := { m with cin := (io.read_double m.cin).2 }
      if value > 0 then
        (MenuReturnState.Continue,
          { m with state_ref := { m.state_ref with curr_user := some (user.withdraw value) } })
      else
        (MenuReturnState.Continue, m)
    else if query = "3" then
      let value := (io.read_double m.cin).1
      let m := { m with cin := (io.read_double m.cin).2 }
      if value > 0 then
        (MenuReturnState.Continue,
          { m with state_ref := { m.state_ref with curr_user := some (user.deposit value) } })
      else
        (MenuReturnState.Continue, m)
    else if query = "4" then
      (MenuReturnState.Continue, m.set_menu Menu.PayPillsMenu)
    else if query = "5" then
      (MenuReturnState.Continue, m.set_menu Menu.WelcomeMenu)
    else
      (MenuReturnState.Continue, m)

/-- The method `MenuReturnState PayPillsMenu::display(MenuState& state)`.  The line
`User& user = *state.curr_user;` runs before any input is read and has no check: on an
empty optional its behaviour is undefined, which is the result `none`. -/
def PayPillsMenu.display [Sub α] [LT α] [DecidableRel (α := α) (· < ·)]
    (io : InputSource σ α) (m : MenuManager σ α) :
    Option (MenuReturnState × MenuManager σ α) :=
  match m.state_ref.curr_user with
  | none => none
  | some user =>
    let query := (io.read_string m.cin).1
    let m := { m with cin := (io.read_string m.cin).2 }
    if query = "1" then
      let cin := (io.read_string m.cin).2
      let amount := (io.read_double cin).1
      let m := { m with cin := (io.read_double cin).2 }
      some (MenuReturnState.Continue,
        { m with state_ref := { m.state_ref with curr_user := some (user.withdraw amount) } })
    else if query = "4" then
      some (MenuReturnState.Continue, m.set_menu Menu.UserMenu)
    else
      some (MenuReturnState.Exit, m)

/-- The virtual call `menu_type->display(state_ref)`: the `display` of the active
screen; `none` when that call does not return: it has undefined behaviour
(`PayPillsMenu`) or an exception leaves it (`LoginMenu`). -/
def Menu.display [Zero α] [Add α] [Sub α] [IntCast α] [LT α] [DecidableRel (α := α) (· < ·)]
    (io : InputSource σ α) (m : MenuManager σ α) :
    Option (MenuReturnState × MenuManager σ α) :=
  match m.menu_type with
  | Menu.WelcomeMenu => some (WelcomeMenu.display io m)
  | Menu.LoginMenu => LoginMenu.display io m
  | Menu.SignUp => some (SignUp.display io m)
  | Menu.UserMenu => some (UserMenu.display io m)
  | Menu.PayPillsMenu => PayPillsMenu.display io m

/-- The member `MenuReturnState MenuManager::run_menu()`:
`state = Continue; while (state == Continue) state = menu_type->display(state_ref);
return state;`.  The first argument bounds the number of iterations; the result is
`none` when the bound is used up before the loop ends, or when a `display` call does
not return. -/
def MenuManager.run_menu [Zero α] [Add α] [Sub α] [IntCast α] [LT α]
    [DecidableRel (α := α) (· < ·)] (io : InputSource σ α) :
    Nat → MenuManager σ α → Option (MenuReturnState × MenuManager σ α)
  | 0, _ => none
  | fuel + 1, m =>
    match Menu.display io m with
    | none => none
    | some (MenuReturnState.Continue, m1) => MenuManager.run_menu io fuel m1
    | some (state, m1) => some (state, m1)

/-- The first `n` iterations of the loop of `run_menu` while a user session lasts: each
of them runs with `UserMenu` or `PayPillsMenu` active and returns `Continue`.  The
result is the state after the `n`-th iteration, and `none` when one of them runs on
another screen, returns another outcome or does not return. -/
def MenuManager.session_steps [Zero α] [Add α] [Sub α] [IntCast α] [LT α]
    [DecidableRel (α := α) (· < ·)] (io : InputSource σ α) :
    Nat → MenuManager σ α → Option (MenuManager σ α)
  | 0, m => some m
  | n + 1, m =>
    if m.menu_type = Menu.UserMenu ∨ m.menu_type = Menu.PayPillsMenu then
      match Menu.display io m with
      | some (MenuReturnState.Continue, m1) => MenuManager.session_steps io n m1
      | _ => none
    else none

/-- The state after `n` calls `menu_type->display(state_ref)` made one after the other,
whatever each of them returns; `none` when one of them does not return.  The
loop of `run_menu` makes its next call only after `Continue`, so the states it goes
through are among these. -/
def MenuManager.steps [Zero α] [Add α] [Sub α] [IntCast α] [LT α]
    [DecidableRel (α := α) (· < ·)] (io : InputSource σ α) :
    Nat → MenuManager σ α → Option (MenuManager σ α)
  | 0, m => some m
  | n + 1, m =>
    match Menu.display io m with
    | none => none
    | some r => MenuManager.steps io n r.2

/-! ## app.cpp / main.cpp -/

/-- The list `main` builds before the application starts: `UsersList u_list(20)` with
the test user `Mohamed` / `12345` after `deposit(2000)` added. -/
def main_u_list [Zero α] [Add α] [IntCast α] : UsersList α :=
  let u1 := (((User.new : User α).set_username "Mohamed").set_userpasswd "12345").deposit
    ((2000 : Int) : α)
  ((UsersList.new 20).add_user u1).2

/-- The function `main`: the list above, a default-initialised `MenuState` (no current
user; `rt_state` is never initialised, so its value `rt` is arbitrary), the
`Application` around a `MenuManager`, and `app_run`, which is `run_menu`. -/
def main [Zero α] [Add α] [Sub α] [IntCast α] [LT α] [DecidableRel (α := α) (· < ·)]
    (io : InputSource σ α) (fuel : Nat) (rt : MenuReturnState) (cin : σ) :
    Option (MenuReturnState × MenuManager σ α) :=
  (MenuManager.new ⟨none, rt⟩ main_u_list cin).run_menu io fuel

/-! ## A scripted input source -/

/-- A finite script for `std::cin`: the values later extractions will yield, one queue
for each of the three extraction operations. -/
structure Script (α : Type) where
  strings : List String
  ints : List Int
  doubles : List α
deriving DecidableEq, Repr

/-- The input source that plays a `Script`: each extraction takes the head of its
queue; an exhausted queue yields the empty string or zero.  The terminal is 80 columns
wide. -/
def Script.source [Zero α] : InputSource (Script α) α where
  read_string s :=
    match s.strings with
    | [] => ("", s)
    | x :: xs => (x, { s with strings := xs })
  read_int s :=
    match s.ints with
    | [] => (0, s)
    | x :: xs => (x, { s with ints := xs })
  read_double s :=
    match s.doubles with
    | [] => (0, s)
    | x :: xs => (x, { s with doubles := xs })
  terminal_width _ := 80

/-! ## Lemmas on the users list -/

theorem operator_eq_iff (u v : User α) :
    u.operator_eq v = true ↔ u.username = v.username ∧ u.password = v.password := by
  simp [User.operator_eq]

theorem add_user_of_lt (l : UsersList α) (user : User α) (h : l.users.length < l.max_users) :
    l.add_user user = (true, { l with users := l.users ++ [user] }) := by
  have h1 : ¬ l.users.length ≥ l.max_users := by omega
  simp [UsersList.add_user, h1]

theorem add_user_of_not_lt (l : UsersList α) (user : User α)
    (h : ¬ l.users.length < l.max_users) : l.add_user user = (false, l) := by
  have h1 : l.users.length ≥ l.max_users := by omega
  simp [UsersList.add_user, h1]

theorem add_users_append (l : UsersList α) (us : List (User α)) (u : User α) :
    l.add_users (us ++ [u]) =
      ((l.add_users us).1 ++ [((l.add_users us).2.add_user u).1],
        ((l.add_users us).2.add_user u).2) := by
  induction us generalizing l with
  | nil => simp [UsersList.add_users]
  | cons x xs ih => simp [UsersList.add_users, ih]

theorem add_users_state (l : UsersList α) (us : List (User α)) :
    (l.add_users us).2 =
      { l with users := l.users ++ us.take (l.max_users - l.users.length) } := by
  induction us generalizing l with
  | nil => simp [UsersList.add_users]
  | cons x xs ih =>
    by_cases h : l.users.length < l.max_users
    · obtain ⟨k, hk⟩ : ∃ k, l.max_users - l.users.length = k + 1 :=
        ⟨l.max_users - l.users.length - 1, by omega⟩
      have hk2 : l.max_users - (l.users.length + 1) = k := by omega
      simp [UsersList.add_users, ih, add_user_of_lt l x h, hk, hk2]
    · have hk : l.max_users - l.users.length = 0 := by omega
      simp [UsersList.add_users, ih, add_user_of_not_lt l x h, hk]

theorem add_users_new_size (C : Nat) (us : List (User α)) :
    ((UsersList.new C : UsersList α).add_users us).2.size = min us.length C := by
  rw [add_users_state]
  simp [UsersList.size, UsersList.new, Nat.min_comm]

theorem add_users_new_max (C : Nat) (us : List (User α)) :
    ((UsersList.new C : UsersList α).add_users us).2.max_users = C := by
  rw [add_users_state]
  simp [UsersList.new]

theorem search_loop_eq_some (m u : User α) (us : List (User α)) :
    UsersList.search_loop m us = some u ↔
      ∃ i : Nat, us[i]? = some u ∧ u.username = m.username ∧ u.password = m.password ∧
        ∀ (j : Nat) (v : User α), j < i → us[j]? = some v →
          ¬ (v.username = m.username ∧ v.password = m.password) := by
  induction us with
  | nil => simp [UsersList.search_loop]
  | cons x xs ih =>
    by_cases hx : x.operator_eq m = true
    · have hx2 := (operator_eq_iff x m).1 hx
      simp only [UsersList.search_loop, hx, if_true, Option.some.injEq]
      constructor
      · rintro rfl
        exact ⟨0, by simp, hx2.1, hx2.2, by intro j v hj; omega⟩
      · rintro ⟨i, hi, _, _, hmin⟩
        cases i with
        | zero => simpa using hi
        | succ i => exact absurd hx2 (hmin 0 x (by omega) (by simp))
    · have hx2 : ¬ (x.username = m.username ∧ x.password = m.password) :=
        fun h => hx ((operator_eq_iff x m).2 h)
      simp only [UsersList.search_loop, hx, Bool.false_eq_true, if_false, ih]
      constructor
      · rintro ⟨i, hi, h1, h2, hmin⟩
        refine ⟨i + 1, by simpa using hi, h1, h2, ?_⟩
        intro j v hj hv
        cases j with
        | zero =>
          have : x = v := by simpa using hv
          exact this ▸ hx2
        | succ j => exact hmin j v (by omega) (by simpa using hv)
      · rintro ⟨i, hi, h1, h2, hmin⟩
        cases i with
        | zero =>
          have : x = u := by simpa using hi
          exact absurd ⟨h1, h2⟩ (this ▸ hx2)
        | succ i =>
          refine ⟨i, by simpa using hi, h1, h2, ?_⟩
          intro j v hj hv
          exact hmin (j + 1) v (by omega) (by simpa using hv)

theorem search_loop_eq_none (m : User α) (us : List (User α)) :
    UsersList.search_loop m us = none ↔
      ∀ v ∈ us, ¬ (v.username = m.username ∧ v.password = m.password) := by
  induction us with
  | nil => simp [UsersList.search_loop]
  | cons x xs ih =>
    by_cases hx : x.operator_eq m = true
    · have hx2 := (operator_eq_iff x m).1 hx
      simp only [UsersList.search_loop, hx, if_true]
      constructor
      · intro h
        cases h
      · intro h
        exact absurd hx2 (h x (by simp))
    · have hx2 : ¬ (x.username = m.username ∧ x.password = m.password) :=
        fun h => hx ((operator_eq_iff x m).2 h)
      simp only [UsersList.search_loop, hx, Bool.false_eq_true, if_false, ih]
      constructor
      · intro h v hv
        rcases List.mem_cons.1 hv with rfl | hv
        · exact hx2
        · exact h v hv
      · intro h v hv
        exact h v (List.mem_cons_of_mem _ hv)

theorem search_loop_congr (m m2 : User α) (h1 : m2.username = m.username)
    (h2 : m2.password = m.password) (us : List (User α)) :
    UsersList.search_loop m2 us = UsersList.search_loop m us := by
  induction us with
  | nil => rfl
  | cons x xs ih => simp [UsersList.search_loop, User.operator_eq, h1, h2, ih]

theorem search_loop_append_of_some (m u : User α) (us vs : List (User α))
    (h : UsersList.search_loop m us = some u) :
    UsersList.search_loop m (us ++ vs) = some u := by
  induction us with
  | nil => simp [UsersList.search_loop] at h
  | cons x xs ih =>
    by_cases hx : x.operator_eq m = true
    · simpa [UsersList.search_loop, hx] using h
    · simp only [UsersList.search_loop, hx, List.cons_append, Bool.false_eq_true, if_false] at h ⊢
      exact ih h

theorem search_loop_append_of_none (m : User α) (us vs : List (User α))
    (h : UsersList.search_loop m us = none) :
    UsersList.search_loop m (us ++ vs) = UsersList.search_loop m vs := by
  induction us with
  | nil => rfl
  | cons x xs ih =>
    by_cases hx : x.operator_eq m = true
    · simp [UsersList.search_loop, hx] at h
    · simp only [UsersList.search_loop, hx, List.cons_append, Bool.false_eq_true, if_false] at h ⊢
      exact ih h


theorem add_users_flags (l : UsersList α) (us : List (User α)) :
    (l.add_users us).1 =
      (List.range us.length).map (fun k => decide (l.users.length + k < l.max_users)) := by
  induction us generalizing l with
  | nil => simp [UsersList.add_users]
  | cons x xs ih =>
    by_cases h : l.users.length < l.max_users
    · simp [UsersList.add_users, ih, add_user_of_lt l x h, List.range_succ_eq_map, h,
        Function.comp_def, Nat.add_assoc, Nat.add_comm 1]
    · simp only [UsersList.add_users, ih, add_user_of_not_lt l x h, List.length_cons,
        List.range_succ_eq_map, List.map_cons, List.map_map, Nat.add_zero, h, decide_False]
      congr 1
      apply List.map_congr_left
      intro k _
      have h1 : ¬ l.users.length + k < l.max_users := by omega
      have h2 : ¬ l.users.length + (k + 1) < l.max_users := by omega
      simp [h1, h2]

theorem after_calls_size (C : Nat) (us : List (User α)) (k : Nat) (hk : k ≤ us.length) :
    (UsersList.after_calls C us k).size = min k C := by
  unfold UsersList.after_calls
  rw [add_users_new_size, List.length_take, Nat.min_eq_left hk]

theorem after_calls_max (C : Nat) (us : List (User α)) (k : Nat) :
    (UsersList.after_calls C us k).max_users = C := by
  unfold UsersList.after_calls
  exact add_users_new_max C _

theorem after_calls_succ (C : Nat) (us : List (User α)) (k : Nat) (hk : k < us.length) :
    UsersList.after_calls C us (k + 1) =
      ((UsersList.after_calls C us k).add_user us[k]).2 := by
  unfold UsersList.after_calls
  rw [List.take_succ, List.getElem?_eq_getElem hk, Option.toList, add_users_append]

/-! ## Lemmas on the menu loop -/

theorem run_menu_of_continue [Zero α] [Add α] [Sub α] [IntCast α] [LT α]
    [DecidableRel (α := α) (· < ·)] (io : InputSource σ α) (fuel : Nat)
    (m m1 : MenuManager σ α) (h : Menu.display io m = some (MenuReturnState.Continue, m1)) :
    MenuManager.run_menu io (fuel + 1) m = MenuManager.run_menu io fuel m1 := by
  simp [MenuManager.run_menu, h]

theorem run_menu_of_not_continue [Zero α] [Add α] [Sub α] [IntCast α] [LT α]
    [DecidableRel (α := α) (· < ·)] (io : InputSource σ α) (fuel : Nat)
    (m m1 : MenuManager σ α) (state : MenuReturnState)
    (h : Menu.display io m = some (state, m1)) (hs : state ≠ MenuReturnState.Continue) :
    MenuManager.run_menu io (fuel + 1) m = some (state, m1) := by
  cases state with
  | Continue => exact absurd rfl hs
  | ERROR => simp [MenuManager.run_menu, h]
  | Exit => simp [MenuManager.run_menu, h]

theorem quit_chosen_iff (choice : String) :
    LoginMenu.quit_chosen choice = true ↔
      choice.data.head? = some 'q' ∨ choice.data.head? = some 'Q' := by
  unfold LoginMenu.quit_chosen
  cases choice.data with
  | nil => simp
  | cons c cs => simp

/-! ## Lemmas on the screens -/

theorem welcome_display_users (io : InputSource σ α) (m : MenuManager σ α) :
    (WelcomeMenu.display io m).2.curr_users = m.curr_users := by
  unfold WelcomeMenu.display
  simp only [MenuManager.set_menu]
  split_ifs <;> rfl

theorem welcome_display_login (io : InputSource σ α) (m : MenuManager σ α)
    (h : (io.read_string m.cin).1 = "L" ∨ (io.read_string m.cin).1 = "l") :
    WelcomeMenu.display io m =
      (MenuReturnState.Continue,
        { m with cin := (io.read_string m.cin).2, menu_type := Menu.LoginMenu }) := by
  unfold WelcomeMenu.display
  simp [h, MenuManager.set_menu]

theorem login_display_of_found [Zero α] (io : InputSource σ α) (m : MenuManager σ α)
    (u : User α)
    (hfound : m.curr_users.search_users
      ⟨(io.read_string m.cin).1, (io.read_string (io.read_string m.cin).2).1, 0⟩ = some u)
    (hbanner : printBanner (io.terminal_width (io.read_string (io.read_string m.cin).2).2)
      ("Welcome " ++ u.username) = true) :
    LoginMenu.display io m =
      some (MenuReturnState.Continue,
        { m with
          cin := (io.read_string (io.read_string m.cin).2).2
          state_ref := { m.state_ref with curr_user := some u }
          menu_type := Menu.UserMenu }) := by
  simp only [LoginMenu.display, User.new, User.set_username, User.set_userpasswd, hfound,
    MenuManager.set_menu, User.get_username, hbanner, if_true]

theorem login_display_of_throw [Zero α] (io : InputSource σ α) (m : MenuManager σ α)
    (u : User α)
    (hfound : m.curr_users.search_users
      ⟨(io.read_string m.cin).1, (io.read_string (io.read_string m.cin).2).1, 0⟩ = some u)
    (hbanner : printBanner (io.terminal_width (io.read_string (io.read_string m.cin).2).2)
      ("Welcome " ++ u.username) = false) :
    LoginMenu.display io m = none := by
  simp only [LoginMenu.display, User.new, User.set_username, User.set_userpasswd, hfound,
    MenuManager.set_menu, User.get_username, hbanner, Bool.false_eq_true, if_false]

theorem usermenu_display_users [Zero α] [Add α] [Sub α] [LT α]
    [DecidableRel (α := α) (· < ·)] (io : InputSource σ α) (m : MenuManager σ α) :
    (UserMenu.display io m).2.curr_users = m.curr_users := by
  unfold UserMenu.display
  cases m.state_ref.curr_user with
  | none => rfl
  | some user =>
    simp only [MenuManager.set_menu]
    split_ifs <;> rfl

theorem paypills_display_users [Sub α] [LT α] [DecidableRel (α := α) (· < ·)]
    (io : InputSource σ α) (m : MenuManager σ α) (r : MenuReturnState × MenuManager σ α)
    (h : PayPillsMenu.display io m = some r) : r.2.curr_users = m.curr_users := by
  unfold PayPillsMenu.display at h
  cases hu : m.state_ref.curr_user with
  | none => simp [hu] at h
  | some user =>
    simp only [hu, MenuManager.set_menu] at h
    split_ifs at h <;> cases h <;> rfl

theorem session_steps_users [Zero α] [Add α] [Sub α] [IntCast α] [LT α]
    [DecidableRel (α := α) (· < ·)] (io : InputSource σ α) (n : Nat)
    (m m2 : MenuManager σ α) (h : MenuManager.session_steps io n m = some m2) :
    m2.curr_users = m.curr_users := by
  induction n generalizing m with
  | zero =>
    simp only [MenuManager.session_steps, Option.some.injEq] at h
    rw [h]
  | succ n ih =>
    simp only [MenuManager.session_steps] at h
    split_ifs at h with hscreen
    cases hd : Menu.display io m with
    | none => simp [hd] at h
    | some r =>
      obtain ⟨state, m1⟩ := r
      cases state with
      | Continue =>
        simp only [hd] at h
        rw [ih m1 h]
        rcases hscreen with hs | hs
        · simp only [Menu.display, hs, Option.some.injEq] at hd
          rw [← usermenu_display_users io m, hd]
        · simp only [Menu.display, hs] at hd
          exact paypills_display_users io m _ hd
      | ERROR => simp [hd] at h
      | Exit => simp [hd] at h

theorem withdraw_username [Sub α] [LT α] [DecidableRel (α := α) (· < ·)] (u : User α)
    (amount : α) : (u.withdraw amount).username = u.username := by
  unfold User.withdraw
  split_ifs <;> rfl

theorem withdraw_password [Sub α] [LT α] [DecidableRel (α := α) (· < ·)] (u : User α)
    (amount : α) : (u.withdraw amount).password = u.password := by
  unfold User.withdraw
  split_ifs <;> rfl

theorem welcome_display_state (io : InputSource σ α) (m : MenuManager σ α) :
    (WelcomeMenu.display io m).2.state_ref = m.state_ref := by
  unfold WelcomeMenu.display
  simp only [MenuManager.set_menu]
  split_ifs <;> rfl

theorem welcome_display_screen (io : InputSource σ α) (m : MenuManager σ α)
    (hm : m.menu_type = Menu.WelcomeMenu) :
    (WelcomeMenu.display io m).2.menu_type ≠ Menu.UserMenu ∧
    (WelcomeMenu.display io m).2.menu_type ≠ Menu.PayPillsMenu := by
  unfold WelcomeMenu.display
  simp only [MenuManager.set_menu]
  split_ifs <;> simp [hm]

theorem signup_display_state [Zero α] [Add α] [IntCast α] (io : InputSource σ α)
    (m : MenuManager σ α) : (SignUp.display io m).2.state_ref = m.state_ref := by
  unfold SignUp.display
  simp only [MenuManager.set_menu]
  split_ifs <;> rfl

theorem signup_display_screen [Zero α] [Add α] [IntCast α] (io : InputSource σ α)
    (m : MenuManager σ α) :
    (SignUp.display io m).2.menu_type ≠ Menu.UserMenu ∧
    (SignUp.display io m).2.menu_type ≠ Menu.PayPillsMenu := by
  unfold SignUp.display
  simp only [MenuManager.set_menu]
  split_ifs <;> simp

theorem login_display_of_not_found [Zero α] (io : InputSource σ α) (m : MenuManager σ α)
    (hnone : m.curr_users.search_users
      ⟨(io.read_string m.cin).1, (io.read_string (io.read_string m.cin).2).1, 0⟩ = none) :
    LoginMenu.display io m =
      some (if LoginMenu.quit_chosen
          (io.read_string (io.read_string (io.read_string m.cin).2).2).1 = true then
        (MenuReturnState.Continue,
          { m with
            cin := (io.read_string (io.read_string (io.read_string m.cin).2).2).2
            state_ref := { m.state_ref with curr_user := none }
            menu_type := Menu.WelcomeMenu })
      else
        (MenuReturnState.Continue,
          { m with
            cin := (io.read_string (io.read_string (io.read_string m.cin).2).2).2 })) := by
  simp only [LoginMenu.display, User.new, User.set_username, User.set_userpasswd, hnone,
    MenuManager.set_menu]
  split_ifs <;> rfl

theorem login_display_some [Zero α] (io : InputSource σ α) (m : MenuManager σ α)
    (r : MenuReturnState × MenuManager σ α) (h : LoginMenu.display io m = some r) :
    (∃ u, m.curr_users.search_users
        ⟨(io.read_string m.cin).1, (io.read_string (io.read_string m.cin).2).1, 0⟩ =
          some u ∧
      r = (MenuReturnState.Continue,
        { m with
          cin := (io.read_string (io.read_string m.cin).2).2
          state_ref := { m.state_ref with curr_user := some u }
          menu_type := Menu.UserMenu })) ∨
    (m.curr_users.search_users
        ⟨(io.read_string m.cin).1, (io.read_string (io.read_string m.cin).2).1, 0⟩ = none ∧
      (r = (MenuReturnState.Continue,
          { m with
            cin := (io.read_string (io.read_string (io.read_string m.cin).2).2).2
            state_ref := { m.state_ref with curr_user := none }
            menu_type := Menu.WelcomeMenu }) ∨
        r = (MenuReturnState.Continue,
          { m with
            cin := (io.read_string (io.read_string (io.read_string m.cin).2).2).2 }))) := by
  cases hs : m.curr_users.search_users
      ⟨(io.read_string m.cin).1, (io.read_string (io.read_string m.cin).2).1, 0⟩ with
  | some u =>
    cases hb : printBanner (io.terminal_width (io.read_string (io.read_string m.cin).2).2)
        ("Welcome " ++ u.username) with
    | true =>
      rw [login_display_of_found io m u hs hb] at h
      exact Or.inl ⟨u, rfl, (Option.some.inj h).symm⟩
    | false =>
      rw [login_display_of_throw io m u hs hb] at h
      cases h
  | none =>
    rw [login_display_of_not_found io m hs] at h
    refine Or.inr ⟨rfl, ?_⟩
    split_ifs at h
    · exact Or.inl (Option.some.inj h).symm
    · exact Or.inr (Option.some.inj h).symm

theorem login_display_users [Zero α] (io : InputSource σ α) (m : MenuManager σ α)
    (r : MenuReturnState × MenuManager σ α) (h : LoginMenu.display io m = some r) :
    r.2.curr_users = m.curr_users := by
  rcases login_display_some io m r h with ⟨u, _, hr⟩ | ⟨_, hr | hr⟩ <;> rw [hr]

theorem usermenu_display_of_user [Zero α] [Add α] [Sub α] [LT α]
    [DecidableRel (α := α) (· < ·)] (io : InputSource σ α) (m : MenuManager σ α)
    (user : User α) (hu : m.state_ref.curr_user = some user) :
    (UserMenu.display io m).1 = MenuReturnState.Continue ∧
    (UserMenu.display io m).2.state_ref.rt_state = m.state_ref.rt_state ∧
    ∃ v, (UserMenu.display io m).2.state_ref.curr_user = some v ∧
      v.username = user.username ∧ v.password = user.password := by
  unfold UserMenu.display
  rw [hu]
  simp only [MenuManager.set_menu]
  split_ifs <;>
    first
    | exact ⟨rfl, rfl, user, hu, rfl, rfl⟩
    | exact ⟨rfl, rfl, _, rfl, withdraw_username user _, withdraw_password user _⟩
    | exact ⟨rfl, rfl, _, rfl, rfl, rfl⟩

theorem paypills_display_of_user [Sub α] [LT α] [DecidableRel (α := α) (· < ·)]
    (io : InputSource σ α) (m : MenuManager σ α) (user : User α)
    (hu : m.state_ref.curr_user = some user) :
    ∃ r, PayPillsMenu.display io m = some r ∧
      r.2.state_ref.rt_state = m.state_ref.rt_state ∧
      ∃ v, r.2.state_ref.curr_user = some v ∧
        v.username = user.username ∧ v.password = user.password := by
  unfold PayPillsMenu.display
  rw [hu]
  simp only [MenuManager.set_menu]
  split_ifs <;>
    first
    | exact ⟨_, rfl, rfl, user, hu, rfl, rfl⟩
    | exact ⟨_, rfl, rfl, _, rfl, withdraw_username user _, withdraw_password user _⟩

/-! ## Lemmas on the states the loop goes through -/

theorem display_user_present [Zero α] [Add α] [Sub α] [IntCast α] [LT α]
    [DecidableRel (α := α) (· < ·)] (io : InputSource σ α) (m : MenuManager σ α)
    (hinv : m.menu_type = Menu.UserMenu ∨ m.menu_type = Menu.PayPillsMenu →
      ∃ u, m.state_ref.curr_user = some u) :
    (∃ r, Menu.display io m = some r ∧
      (r.2.menu_type = Menu.UserMenu ∨ r.2.menu_type = Menu.PayPillsMenu →
        ∃ u, r.2.state_ref.curr_user = some u)) ∨
    (m.menu_type = Menu.LoginMenu ∧ LoginMenu.display io m = none) := by
  cases hm : m.menu_type with
  | WelcomeMenu =>
    refine Or.inl ⟨WelcomeMenu.display io m, by simp [Menu.display, hm], ?_⟩
    have h := welcome_display_screen io m hm
    rintro (h1 | h1)
    · exact absurd h1 h.1
    · exact absurd h1 h.2
  | LoginMenu =>
    cases h : LoginMenu.display io m with
    | none => exact Or.inr ⟨rfl, rfl⟩
    | some r =>
      refine Or.inl ⟨r, by simp [Menu.display, hm, h], ?_⟩
      rcases login_display_some io m r h with ⟨u, _, hr⟩ | ⟨_, hr | hr⟩
      · rw [hr]
        exact fun _ => ⟨u, rfl⟩
      · rw [hr]
        simp
      · rw [hr]
        simp [hm]
  | SignUp =>
    refine Or.inl ⟨SignUp.display io m, by simp [Menu.display, hm], ?_⟩
    have h := signup_display_screen io m
    rintro (h1 | h1)
    · exact absurd h1 h.1
    · exact absurd h1 h.2
  | UserMenu =>
    obtain ⟨u, hu⟩ := hinv (Or.inl hm)
    refine Or.inl ⟨UserMenu.display io m, by simp [Menu.display, hm], ?_⟩
    obtain ⟨_, _, v, hv, _⟩ := usermenu_display_of_user io m u hu
    exact fun _ => ⟨v, hv⟩
  | PayPillsMenu =>
    obtain ⟨u, hu⟩ := hinv (Or.inr hm)
    obtain ⟨r, hr, _, v, hv, _⟩ := paypills_display_of_user io m u hu
    exact Or.inl ⟨r, by simp [Menu.display, hm, hr], fun _ => ⟨v, hv⟩⟩

theorem steps_user_present [Zero α] [Add α] [Sub α] [IntCast α] [LT α]
    [DecidableRel (α := α) (· < ·)] (io : InputSource σ α) (n : Nat)
    (m m2 : MenuManager σ α) (h : MenuManager.steps io n m = some m2)
    (hinv : m.menu_type = Menu.UserMenu ∨ m.menu_type = Menu.PayPillsMenu →
      ∃ u, m.state_ref.curr_user = some u) :
    m2.menu_type = Menu.UserMenu ∨ m2.menu_type = Menu.PayPillsMenu →
      ∃ u, m2.state_ref.curr_user = some u := by
  induction n generalizing m with
  | zero =>
    simp only [MenuManager.steps, Option.some.injEq] at h
    rw [← h]
    exact hinv
  | succ n ih =>
    simp only [MenuManager.steps] at h
    rcases display_user_present io m hinv with ⟨r, hr, hinv2⟩ | ⟨hm, hnone⟩
    · simp only [hr] at h
      exact ih r.2 h hinv2
    · simp [Menu.display, hm, hnone] at h

theorem steps_none_at_login [Zero α] [Add α] [Sub α] [IntCast α] [LT α]
    [DecidableRel (α := α) (· < ·)] (io : InputSource σ α) (n : Nat)
    (m : MenuManager σ α) (h : MenuManager.steps io n m = none)
    (hinv : m.menu_type = Menu.UserMenu ∨ m.menu_type = Menu.PayPillsMenu →
      ∃ u, m.state_ref.curr_user = some u) :
    ∃ k mk, k < n ∧ MenuManager.steps io k m = some mk ∧
      mk.menu_type = Menu.LoginMenu ∧ LoginMenu.display io mk = none := by
  induction n generalizing m with
  | zero => simp [MenuManager.steps] at h
  | succ n ih =>
    rcases display_user_present io m hinv with ⟨r, hr, hinv2⟩ | ⟨hm, hnone⟩
    · simp only [MenuManager.steps, hr] at h
      obtain ⟨k, mk, hk, hsteps, hscreen, hthrow⟩ := ih r.2 h hinv2
      exact ⟨k + 1, mk, by omega, by simp [MenuManager.steps, hr, hsteps], hscreen, hthrow⟩
    · exact ⟨0, m, by omega, rfl, hm, hnone⟩

theorem display_rt_state [Zero α] [Add α] [Sub α] [IntCast α] [LT α]
    [DecidableRel (α := α) (· < ·)] (io : InputSource σ α) (m : MenuManager σ α)
    (r : MenuReturnState × MenuManager σ α) (h : Menu.display io m = some r) :
    r.2.state_ref.rt_state = m.state_ref.rt_state := by
  unfold Menu.display at h
  cases hm : m.menu_type with
  | WelcomeMenu =>
    simp only [hm, Option.some.injEq] at h
    rw [← h, welcome_display_state]
  | LoginMenu =>
    simp only [hm] at h
    rcases login_display_some io m r h with ⟨u, _, hr⟩ | ⟨_, hr | hr⟩ <;> rw [hr]
  | SignUp =>
    simp only [hm, Option.some.injEq] at h
    rw [← h, signup_display_state]
  | UserMenu =>
    simp only [hm, Option.some.injEq] at h
    rw [← h]
    cases hu : m.state_ref.curr_user with
    | none =>
      unfold UserMenu.display
      rw [hu]
    | some u => exact (usermenu_display_of_user io m u hu).2.1
  | PayPillsMenu =>
    simp only [hm] at h
    cases hu : m.state_ref.curr_user with
    | none => simp [PayPillsMenu.display, hu] at h
    | some u =>
      obtain ⟨r2, hr2, hrt, _⟩ := paypills_display_of_user io m u hu
      rw [hr2, Option.some.injEq] at h
      rw [← h, hrt]

theorem search_users_of_same_credentials (l : UsersList α) (c c2 : User α)
    (h1 : c2.username = c.username) (h2 : c2.password = c.password) :
    l.search_users c2 = l.search_users c :=
  search_loop_congr c c2 h1 h2 l.users

theorem search_users_add_user_of_some (l : UsersList α) (c u v : User α)
    (h : l.search_users c = some u) : (l.add_user v).2.search_users c = some u := by
  by_cases hlt : l.users.length < l.max_users
  · rw [add_user_of_lt l v hlt]
    exact search_loop_append_of_some c u l.users [v] h
  · rw [add_user_of_not_lt l v hlt]
    exact h

theorem search_users_result_credentials (l : UsersList α) (c u : User α)
    (h : l.search_users c = some u) :
    u ∈ l.users ∧ u.username = c.username ∧ u.password = c.password := by
  obtain ⟨i, hi, h1, h2, _⟩ := (search_loop_eq_some c u l.users).1 h
  exact ⟨List.getElem?_mem hi, h1, h2⟩

theorem signup_display_users [Zero α] [Add α] [IntCast α] (io : InputSource σ α)
    (m : MenuManager σ α) :
    (SignUp.display io m).2.curr_users = m.curr_users ∨
    ∃ v, (SignUp.display io m).2.curr_users = (m.curr_users.add_user v).2 := by
  unfold SignUp.display
  simp only [MenuManager.set_menu]
  split_ifs
  · exact Or.inl rfl
  · exact Or.inr ⟨_, rfl⟩

theorem display_session_stored [Zero α] [Add α] [Sub α] [IntCast α] [LT α]
    [DecidableRel (α := α) (· < ·)] (io : InputSource σ α) (m : MenuManager σ α)
    (r : MenuReturnState × MenuManager σ α) (h : Menu.display io m = some r)
    (hinv : ∀ u, m.state_ref.curr_user = some u → ∃ v, m.curr_users.search_users u = some v) :
    ∀ u, r.2.state_ref.curr_user = some u → ∃ v, r.2.curr_users.search_users u = some v := by
  unfold Menu.display at h
  cases hm : m.menu_type with
  | WelcomeMenu =>
    simp only [hm, Option.some.injEq] at h
    rw [← h, welcome_display_state, welcome_display_users]
    exact hinv
  | LoginMenu =>
    simp only [hm] at h
    rcases login_display_some io m r h with ⟨u0, hs, hr⟩ | ⟨_, hr | hr⟩
    · rw [hr]
      intro u hu
      have hu2 : u0 = u := by simpa using hu
      obtain ⟨_, h1, h2⟩ := search_users_result_credentials _ _ _ hs
      refine ⟨u0, ?_⟩
      rw [← hu2]
      simp only
      rw [search_users_of_same_credentials m.curr_users _ u0 h1 h2]
      exact hs
    · rw [hr]
      intro u hu
      simp at hu
    · rw [hr]
      exact hinv
  | SignUp =>
    simp only [hm, Option.some.injEq] at h
    rw [← h, signup_display_state]
    intro u hu
    obtain ⟨v, hv⟩ := hinv u hu
    rcases signup_display_users io m with hsame | ⟨w, hw⟩
    · rw [hsame]
      exact ⟨v, hv⟩
    · rw [hw]
      exact ⟨v, search_users_add_user_of_some _ _ _ _ hv⟩
  | UserMenu =>
    simp only [hm, Option.some.injEq] at h
    rw [← h, usermenu_display_users]
    cases hu : m.state_ref.curr_user with
    | none =>
      unfold UserMenu.display
      rw [hu]
      intro u hu2
      rw [hu] at hu2
      cases hu2
    | some u0 =>
      obtain ⟨_, _, v, hv, h1, h2⟩ := usermenu_display_of_user io m u0 hu
      intro u hu2
      rw [hv] at hu2
      have hvu : v = u := by simpa using hu2
      obtain ⟨w, hw⟩ := hinv u0 hu
      refine ⟨w, ?_⟩
      rw [← hvu, search_users_of_same_credentials m.curr_users u0 v h1 h2]
      exact hw
  | PayPillsMenu =>
    simp only [hm] at h
    cases hu : m.state_ref.curr_user with
    | none => simp [PayPillsMenu.display, hu] at h
    | some u0 =>
      obtain ⟨r2, hr2, _, v, hv, h1, h2⟩ := paypills_display_of_user io m u0 hu
      have hr : r2 = r := by
        rw [hr2] at h
        simpa using h
      rw [← hr, paypills_display_users io m r2 hr2]
      intro u hu2
      rw [hv] at hu2
      have hvu : v = u := by simpa using hu2
      obtain ⟨w, hw⟩ := hinv u0 hu
      refine ⟨w, ?_⟩
      rw [← hvu, search_users_of_same_credentials m.curr_users u0 v h1 h2]
      exact hw

theorem steps_session_stored [Zero α] [Add α] [Sub α] [IntCast α] [LT α]
    [DecidableRel (α := α) (· < ·)] (io : InputSource σ α) (n : Nat)
    (m m2 : MenuManager σ α) (h : MenuManager.steps io n m = some m2)
    (hinv : ∀ u, m.state_ref.curr_user = some u → ∃ v, m.curr_users.search_users u = some v) :
    ∀ u, m2.state_ref.curr_user = some u → ∃ v, m2.curr_users.search_users u = some v := by
  induction n generalizing m with
  | zero =>
    simp only [MenuManager.steps, Option.some.injEq] at h
    rw [← h]
    exact hinv
  | succ n ih =>
    simp only [MenuManager.steps] at h
    cases hd : Menu.display io m with
    | none => simp [hd] at h
    | some r =>
      simp only [hd] at h
      exact ih r.2 h (display_session_stored io m r hd hinv)

theorem display_users_append [Zero α] [Add α] [Sub α] [IntCast α] [LT α]
    [DecidableRel (α := α) (· < ·)] (io : InputSource σ α) (m : MenuManager σ α)
    (r : MenuReturnState × MenuManager σ α) (h : Menu.display io m = some r) :
    ∃ more, r.2.curr_users.users = m.curr_users.users ++ more := by
  unfold Menu.display at h
  cases hm : m.menu_type with
  | WelcomeMenu =>
    simp only [hm, Option.some.injEq] at h
    exact ⟨[], by rw [← h, welcome_display_users, List.append_nil]⟩
  | LoginMenu =>
    simp only [hm] at h
    exact ⟨[], by rw [login_display_users io m r h, List.append_nil]⟩
  | SignUp =>
    simp only [hm, Option.some.injEq] at h
    rw [← h]
    rcases signup_display_users io m with hsame | ⟨w, hw⟩
    · exact ⟨[], by rw [hsame, List.append_nil]⟩
    · rw [hw]
      by_cases hlt : m.curr_users.users.length < m.curr_users.max_users
      · exact ⟨[w], by rw [add_user_of_lt _ _ hlt]⟩
      · exact ⟨[], by rw [add_user_of_not_lt _ _ hlt, List.append_nil]⟩
  | UserMenu =>
    simp only [hm, Option.some.injEq] at h
    exact ⟨[], by rw [← h, usermenu_display_users, List.append_nil]⟩
  | PayPillsMenu =>
    simp only [hm] at h
    exact ⟨[], by rw [paypills_display_users io m r h, List.append_nil]⟩

theorem steps_users_append [Zero α] [Add α] [Sub α] [IntCast α] [LT α]
    [DecidableRel (α := α) (· < ·)] (io : InputSource σ α) (n : Nat)
    (m m2 : MenuManager σ α) (h : MenuManager.steps io n m = some m2) :
    ∃ more, m2.curr_users.users = m.curr_users.users ++ more := by
  induction n generalizing m with
  | zero =>
    simp only [MenuManager.steps, Option.some.injEq] at h
    exact ⟨[], by rw [← h, List.append_nil]⟩
  | succ n ih =>
    simp only [MenuManager.steps] at h
    cases hd : Menu.display io m with
    | none => simp [hd] at h
    | some r =>
      simp only [hd] at h
      obtain ⟨more1, h1⟩ := display_users_append io m r hd
      obtain ⟨more2, h2⟩ := ih r.2 h
      exact ⟨more1 ++ more2, by rw [h2, h1, List.append_assoc]⟩

theorem steps_rt_state [Zero α] [Add α] [Sub α] [IntCast α] [LT α]
    [DecidableRel (α := α) (· < ·)] (io : InputSource σ α) (n : Nat)
    (m m2 : MenuManager σ α) (h : MenuManager.steps io n m = some m2) :
    m2.state_ref.rt_state = m.state_ref.rt_state := by
  induction n generalizing m with
  | zero =>
    simp only [MenuManager.steps, Option.some.injEq] at h
    rw [← h]
  | succ n ih =>
    simp only [MenuManager.steps] at h
    cases hd : Menu.display io m with
    | none => simp [hd] at h
    | some r =>
      simp only [hd] at h
      rw [ih r.2 h, display_rt_state io m r hd]

/-! ## The claims -/

/-- C2: `add_user` on a list holding `us` with bound `C`: when `|us| < C` it returns
`true` and the list becomes `us ++ [user]`, the bound unchanged; otherwise it returns
`false` and the list is unchanged.  Nothing is asked of `user`: a username or a whole
credential pair already stored is accepted like any other. -/
theorem add_user_spec (l : UsersList α) (user : User α) :
    (l.users.length < l.max_users →
      l.add_user user = (true, { l with users := l.users ++ [user] })) ∧
    (¬ l.users.length < l.max_users → l.add_user user = (false, l)) :=
  ⟨add_user_of_lt l user, add_user_of_not_lt l user⟩

/-- C2 at concrete lists: a second `bob` / `pw1` is appended behind the first while
there is room, and a full list of bound 1 refuses the call. -/
theorem add_user_spec_witness :
    (UsersList.mk [⟨"bob", "pw1", (10 : Int)⟩] 2).add_user ⟨"bob", "pw1", 20⟩ =
        (true, UsersList.mk [⟨"bob", "pw1", 10⟩, ⟨"bob", "pw1", 20⟩] 2) ∧
    (UsersList.mk [⟨"bob", "pw1", (10 : Int)⟩] 1).add_user ⟨"eve", "pw2", 20⟩ =
        (false, UsersList.mk [⟨"bob", "pw1", 10⟩] 1) :=
  ⟨(add_user_spec (UsersList.mk [⟨"bob", "pw1", (10 : Int)⟩] 2) ⟨"bob", "pw1", 20⟩).1
      (by decide),
    (add_user_spec (UsersList.mk [⟨"bob", "pw1", (10 : Int)⟩] 1) ⟨"eve", "pw2", 20⟩).2
      (by decide)⟩

/-- C3: for `n` calls of `add_user` on an empty `UsersList(C)`, the call number `k + 1`
returns `true` exactly when `k + 1 ≤ C`; the size grows by one on a successful call and
not at all on a failed one, and is at most `C` after every call; the flags returned
are `true` for the first `C` calls only, and the final size is `min n C`. -/
theorem add_user_sequence (C : Nat) (us : List (User α)) :
    (∀ k (hk : k < us.length),
      (((UsersList.after_calls C us k).add_user us[k]).1 = true ↔ k + 1 ≤ C) ∧
      UsersList.after_calls C us (k + 1) =
        ((UsersList.after_calls C us k).add_user us[k]).2 ∧
      (UsersList.after_calls C us (k + 1)).size =
        (UsersList.after_calls C us k).size +
          (if ((UsersList.after_calls C us k).add_user us[k]).1 = true then 1 else 0) ∧
      (UsersList.after_calls C us (k + 1)).size ≤ C) ∧
    ((UsersList.new C : UsersList α).add_users us).1 =
      (List.range us.length).map (fun k => decide (k + 1 ≤ C)) ∧
    ((UsersList.new C : UsersList α).add_users us).2.size = min us.length C := by
  refine ⟨?_, ?_, add_users_new_size C us⟩
  · intro k hk
    have hsz := after_calls_size C us k (Nat.le_of_lt hk)
    have hsz1 := after_calls_size C us (k + 1) hk
    have hmax := after_calls_max C us k
    have hflag : ((UsersList.after_calls C us k).add_user us[k]).1 = true ↔ k + 1 ≤ C := by
      by_cases h : (UsersList.after_calls C us k).users.length <
          (UsersList.after_calls C us k).max_users
      · rw [add_user_of_lt _ _ h]
        simp only [UsersList.size] at hsz
        simp only [true_iff]
        omega
      · rw [add_user_of_not_lt _ _ h]
        simp only [UsersList.size] at hsz
        simp only [Bool.false_eq_true, false_iff]
        omega
    refine ⟨hflag, after_calls_succ C us k hk, ?_, ?_⟩
    · rw [hsz1, hsz]
      by_cases h : k + 1 ≤ C
      · rw [if_pos (hflag.2 h)]
        omega
      · rw [if_neg (fun hc => h (hflag.1 hc))]
        omega
    · rw [hsz1]
      omega
  · rw [add_users_flags]
    apply List.map_congr_left
    intro k _
    simp [UsersList.new, Nat.lt_iff_add_one_le]

/-- C3 at capacity 1: adding A returns `true`, adding B returns `false`, the size is 1. -/
theorem add_user_sequence_witness :
    ((UsersList.new 1).add_users [⟨"A", "a", (0 : Int)⟩, ⟨"B", "b", 0⟩]).1 = [true, false] ∧
    ((UsersList.new 1).add_users [⟨"A", "a", (0 : Int)⟩, ⟨"B", "b", 0⟩]).2.size = 1 ∧
    (UsersList.after_calls 1 [⟨"A", "a", (0 : Int)⟩, ⟨"B", "b", 0⟩] 2).size ≤ 1 :=
  ⟨(add_user_sequence 1 [⟨"A", "a", (0 : Int)⟩, ⟨"B", "b", 0⟩]).2.1,
    (add_user_sequence 1 [⟨"A", "a", (0 : Int)⟩, ⟨"B", "b", 0⟩]).2.2,
    ((add_user_sequence 1 [⟨"A", "a", (0 : Int)⟩, ⟨"B", "b", 0⟩]).1 1 (by decide)).2.2.2⟩

/-- C4: `search_users` returns the stored user at the least position whose username and
password both equal those of `match`, as stored (balance included); it returns empty
exactly when no stored user has both fields equal; the balance of `match` plays no
part.  The method is `const`: it yields a result and no new list. -/
theorem search_users_spec (l : UsersList α) (m : User α) :
    (∀ u, l.search_users m = some u ↔
      ∃ i : Nat, l.users[i]? = some u ∧ u.username = m.username ∧ u.password = m.password ∧
        ∀ (j : Nat) (v : User α), j < i → l.users[j]? = some v →
          ¬ (v.username = m.username ∧ v.password = m.password)) ∧
    (l.search_users m = none ↔
      ∀ v ∈ l.users, ¬ (v.username = m.username ∧ v.password = m.password)) ∧
    (∀ b : α, l.search_users { m with balance := b } = l.search_users m) :=
  ⟨fun u => search_loop_eq_some m u l.users, search_loop_eq_none m l.users,
    fun b => search_loop_congr m { m with balance := b } rfl rfl l.users⟩

/-- C5 as stated fails: after `add_user` of `bob` / `pw1` with balance 10 and then of
`bob` / `pw1` with balance 20, both successful, the search with these credentials
returns the first one, whose balance is not that of the second. -/
theorem search_users_duplicate_counterexample :
    ((UsersList.new 2).add_user ⟨"bob", "pw1", (10 : Int)⟩).1 = true ∧
    (((UsersList.new 2).add_user ⟨"bob", "pw1", (10 : Int)⟩).2.add_user
      ⟨"bob", "pw1", 20⟩).1 = true ∧
    (((UsersList.new 2).add_user ⟨"bob", "pw1", (10 : Int)⟩).2.add_user
      ⟨"bob", "pw1", 20⟩).2.search_users ⟨"bob", "pw1", 0⟩ = some ⟨"bob", "pw1", 10⟩ ∧
    (((UsersList.new 2).add_user ⟨"bob", "pw1", (10 : Int)⟩).2.add_user
      ⟨"bob", "pw1", 20⟩).2.search_users ⟨"bob", "pw1", 0⟩ ≠ some ⟨"bob", "pw1", 20⟩ := by
  decide

/-- C5, amended: when `add_user U` succeeded on `l` (whatever calls `more` came after),
a search with `U`'s username and password returns a stored user with that username and
password, and this user is `U` itself, balance included, when no user stored before `U`
has both fields equal to `U`'s; a search whose credentials match no stored user
returns empty. -/
theorem search_users_after_add (l : UsersList α) (U c : User α) (more : List (User α)) :
    ((l.add_user U).1 = true → c.username = U.username → c.password = U.password →
      ∃ v, ((l.add_user U).2.add_users more).2.search_users c = some v ∧
        v ∈ ((l.add_user U).2.add_users more).2.users ∧
        v.username = U.username ∧ v.password = U.password ∧
        ((∀ w ∈ l.users, ¬ (w.username = U.username ∧ w.password = U.password)) → v = U)) ∧
    ((∀ w ∈ ((l.add_user U).2.add_users more).2.users,
        ¬ (w.username = c.username ∧ w.password = c.password)) →
      ((l.add_user U).2.add_users more).2.search_users c = none) := by
  refine ⟨?_, fun h => (search_loop_eq_none c _).2 h⟩
  intro hadd hu hp
  have hlt : l.users.length < l.max_users := by
    by_contra hn
    rw [add_user_of_not_lt l U hn] at hadd
    cases hadd
  rw [add_user_of_lt l U hlt, add_users_state]
  simp only [UsersList.search_users, List.append_assoc]
  rw [search_loop_congr U c hu hp]
  cases hs : UsersList.search_loop U l.users with
  | some v =>
    obtain ⟨i, hi, h1, h2, _⟩ := (search_loop_eq_some U v l.users).1 hs
    have hv : v ∈ l.users := List.getElem?_mem hi
    refine ⟨v, search_loop_append_of_some U v _ _ hs, ?_, h1, h2, ?_⟩
    · exact List.mem_append_left _ hv
    · intro hnone
      exact absurd ⟨h1, h2⟩ (hnone v hv)
  | none =>
    refine ⟨U, ?_, ?_, rfl, rfl, fun _ => rfl⟩
    · rw [search_loop_append_of_none U _ _ hs]
      simp [UsersList.search_loop, User.operator_eq]
    · simp

/-- C5, amended, at a concrete list: `bob` is added to an empty list of bound 2, then
`eve`; the search for `bob` / `pw1` returns `bob` with the balance 10 he was added
with. -/
theorem search_users_after_add_witness :
    ∃ v, (((UsersList.new 2).add_user ⟨"bob", "pw1", (10 : Int)⟩).2.add_users
        [⟨"eve", "pw2", 5⟩]).2.search_users ⟨"bob", "pw1", 0⟩ = some v ∧
      v = ⟨"bob", "pw1", 10⟩ := by
  obtain ⟨v, h1, _, _, _, h5⟩ :=
    (search_users_after_add (UsersList.new 2) ⟨"bob", "pw1", (10 : Int)⟩ ⟨"bob", "pw1", 0⟩
      [⟨"eve", "pw2", 5⟩]).1 (by decide) rfl rfl
  exact ⟨v, h1, h5 (by simp [UsersList.new])⟩

/-- C6: `withdraw(amount)` with `amount > balance` leaves the user as it is, every
field included; with `0 ≤ amount ≤ balance` the new balance is the old balance minus
`amount` and the other fields are unchanged. -/
theorem withdraw_spec [Zero α] [Sub α] [Preorder α] [DecidableRel (α := α) (· < ·)]
    (u : User α) (amount : α) :
    (amount > u.balance → u.withdraw amount = u) ∧
    (0 ≤ amount → amount ≤ u.balance →
      u.withdraw amount = { u with balance := u.balance - amount }) := by
  constructor
  · intro h
    simp [User.withdraw, h]
  · intro _ h
    have h1 : ¬ amount > u.balance := not_lt_of_le h
    simp [User.withdraw, h1]

/-- C6 at balance 100: withdrawing 150 changes nothing, withdrawing 30 leaves 70. -/
theorem withdraw_spec_witness :
    (⟨"bob", "pw1", (100 : Int)⟩ : User Int).withdraw 150 = ⟨"bob", "pw1", 100⟩ ∧
    (⟨"bob", "pw1", (100 : Int)⟩ : User Int).withdraw 30 = ⟨"bob", "pw1", 100 - 30⟩ :=
  ⟨(withdraw_spec (⟨"bob", "pw1", (100 : Int)⟩ : User Int) 150).1 (by decide),
    (withdraw_spec (⟨"bob", "pw1", (100 : Int)⟩ : User Int) 30).2 (by decide) (by decide)⟩

/-- C7: `deposit(amount)` adds without any test: for every amount (zero and negative
ones too, with no bound) the new balance is the old balance plus `amount`, and the
username and the password are unchanged. -/
theorem deposit_spec [Add α] (u : User α) (amount : α) :
    (u.deposit amount).balance = u.balance + amount ∧
    (u.deposit amount).username = u.username ∧
    (u.deposit amount).password = u.password :=
  ⟨rfl, rfl, rfl⟩

/-- C1, the code at the failing input: the application starts, the Welcome screen reads
the token `x`, which is no selection, and `run_menu` returns `ERROR` after this one
`display` call, for every iteration bound, with the token `Q` still unread: the loop
has ended and no screen returned `Exit`. -/
theorem run_menu_stops_at_error (fuel : Nat) (rt : MenuReturnState) :
    main Script.source (fuel + 1) rt (⟨["x", "Q"], [], []⟩ : Script Int) =
      some (MenuReturnState.ERROR,
        ⟨Menu.WelcomeMenu, ⟨none, rt⟩, main_u_list, ⟨["Q"], [], []⟩⟩) := by
  unfold main
  exact run_menu_of_not_continue _ fuel _ _ _ rfl (by decide)

/-- C9, the code at the failing input: the users list holds a user whose username has
69 characters, the terminal is 80 columns wide, and `LoginMenu::display` reads that
username and the password.  `search_users` finds the user, and the call does not
return: `printBanner` throws on the banner text of 77 characters, so `UserMenu` is
never made active and no outcome is returned. -/
theorem login_long_username_throws (rt : MenuReturnState) :
    (UsersList.mk [⟨"Mohamed", "12345", (2000 : Int)⟩,
        ⟨"a_username_of_sixty_nine_characters_is_too_wide_for_the_login_banner_", "pw", 10⟩] 20).search_users
      ⟨"a_username_of_sixty_nine_characters_is_too_wide_for_the_login_banner_", "pw", 0⟩ =
      some ⟨"a_username_of_sixty_nine_characters_is_too_wide_for_the_login_banner_", "pw", 10⟩ ∧
    printBanner 80
      ("Welcome " ++ "a_username_of_sixty_nine_characters_is_too_wide_for_the_login_banner_") = false ∧
    LoginMenu.display Script.source
      (⟨Menu.LoginMenu, ⟨none, rt⟩,
        UsersList.mk [⟨"Mohamed", "12345", 2000⟩,
          ⟨"a_username_of_sixty_nine_characters_is_too_wide_for_the_login_banner_", "pw", 10⟩] 20,
        ⟨["a_username_of_sixty_nine_characters_is_too_wide_for_the_login_banner_", "pw"], [],
          []⟩⟩ : MenuManager (Script Int) Int) = none := by
  refine ⟨by decide, by decide, ?_⟩
  cases rt <;> decide

/-- C10 as stated fails: with credentials that match no stored user, the choice `q` is
not `Q`, and yet the active screen does not stay `LoginMenu`: it becomes
`WelcomeMenu`. -/
theorem login_lowercase_quit_counterexample :
    (∀ v ∈ (main_u_list : UsersList Int).users,
      ¬ (v.username = "Mohamed" ∧ v.password = "wrong")) ∧
    "q" ≠ "Q" ∧
    LoginMenu.display Script.source
      (⟨Menu.LoginMenu, ⟨none, MenuReturnState.Continue⟩, main_u_list,
        ⟨["Mohamed", "wrong", "q"], [], []⟩⟩ : MenuManager (Script Int) Int) =
      some (MenuReturnState.Continue,
        ⟨Menu.WelcomeMenu, ⟨none, MenuReturnState.Continue⟩, main_u_list,
          ⟨[], [], []⟩⟩) ∧
    Menu.WelcomeMenu ≠ Menu.LoginMenu := by
  decide

/-- C10, amended: `LoginMenu::display` when the username and password read match no
stored user: the call returns, and if the choice read begins with `q` or `Q` then
`curr_user` is cleared and the active screen becomes `WelcomeMenu`; for every other
choice, the empty one included, the active screen and the session are unchanged.  The
outcome is `Continue` in both cases and the users list is unchanged. -/
theorem login_not_found_spec [Zero α] (io : InputSource σ α) (m : MenuManager σ α)
    (hnone : ∀ v ∈ m.curr_users.users,
      ¬ (v.username = (io.read_string m.cin).1 ∧
        v.password = (io.read_string (io.read_string m.cin).2).1)) :
    ∃ r, LoginMenu.display io m = some r ∧
      r.1 = MenuReturnState.Continue ∧
      r.2.curr_users = m.curr_users ∧
      (((io.read_string (io.read_string (io.read_string m.cin).2).2).1.data.head? =
            some 'q' ∨
          (io.read_string (io.read_string (io.read_string m.cin).2).2).1.data.head? =
            some 'Q') →
        r.2.state_ref.curr_user = none ∧ r.2.menu_type = Menu.WelcomeMenu) ∧
      (¬ ((io.read_string (io.read_string (io.read_string m.cin).2).2).1.data.head? =
            some 'q' ∨
          (io.read_string (io.read_string (io.read_string m.cin).2).2).1.data.head? =
            some 'Q') →
        r.2.menu_type = m.menu_type ∧ r.2.state_ref = m.state_ref) := by
  have hs : m.curr_users.search_users
      ⟨(io.read_string m.cin).1, (io.read_string (io.read_string m.cin).2).1, 0⟩ = none :=
    (search_loop_eq_none _ m.curr_users.users).2 hnone
  rw [← quit_chosen_iff, login_display_of_not_found io m hs]
  refine ⟨_, rfl, ?_⟩
  by_cases hq : LoginMenu.quit_chosen
      (io.read_string (io.read_string (io.read_string m.cin).2).2).1 = true
  · simp [hq]
  · simp [hq]

/-- C10, amended, on the application's list with the input `Mohamed`, `wrong`: the
choice `Quit` leads to `WelcomeMenu` with no current user, the choice `R` leaves
`LoginMenu` active and the logged-in session as it was. -/
theorem login_not_found_spec_witness :
    (∃ r, LoginMenu.display Script.source
        (⟨Menu.LoginMenu, ⟨some ⟨"amy", "pw0", 7⟩, MenuReturnState.Continue⟩, main_u_list,
          ⟨["Mohamed", "wrong", "Quit"], [], []⟩⟩ : MenuManager (Script Int) Int) = some r ∧
      r.2.menu_type = Menu.WelcomeMenu ∧ r.2.state_ref.curr_user = none) ∧
    (∃ r, LoginMenu.display Script.source
        (⟨Menu.LoginMenu, ⟨some ⟨"amy", "pw0", 7⟩, MenuReturnState.Continue⟩, main_u_list,
          ⟨["Mohamed", "wrong", "R"], [], []⟩⟩ : MenuManager (Script Int) Int) = some r ∧
      r.2.menu_type = Menu.LoginMenu ∧
      r.2.state_ref.curr_user = some ⟨"amy", "pw0", 7⟩) := by
  obtain ⟨r1, h1, _, _, hq1, _⟩ := login_not_found_spec Script.source
    (⟨Menu.LoginMenu, ⟨some ⟨"amy", "pw0", 7⟩, MenuReturnState.Continue⟩, main_u_list,
      ⟨["Mohamed", "wrong", "Quit"], [], []⟩⟩ : MenuManager (Script Int) Int) (by decide)
  obtain ⟨r2, h2, _, _, _, hq2⟩ := login_not_found_spec Script.source
    (⟨Menu.LoginMenu, ⟨some ⟨"amy", "pw0", 7⟩, MenuReturnState.Continue⟩, main_u_list,
      ⟨["Mohamed", "wrong", "R"], [], []⟩⟩ : MenuManager (Script Int) Int) (by decide)
  have h3 := hq1 (Or.inr (by decide))
  have h4 := hq2 (by decide)
  exact ⟨⟨r1, h1, h3.2, h3.1⟩, ⟨r2, h2, h4.1, by rw [h4.2]⟩⟩

/-- C11: `SignUp::display` when the password and the confirmation read differ: the
users list is unchanged (no user is added), the session is unchanged, the active
screen is `SignUp` again and the outcome is `Continue`; the initial balance is not
read. -/
theorem signup_mismatch_spec [Zero α] [Add α] [IntCast α] (io : InputSource σ α)
    (m : MenuManager σ α)
    (hne : (io.read_string (io.read_string m.cin).2).1 ≠
      (io.read_string (io.read_string (io.read_string m.cin).2).2).1) :
    (SignUp.display io m).1 = MenuReturnState.Continue ∧
    (SignUp.display io m).2.curr_users = m.curr_users ∧
    (SignUp.display io m).2.state_ref = m.state_ref ∧
    (SignUp.display io m).2.menu_type = Menu.SignUp ∧
    (SignUp.display io m).2.cin =
      (io.read_string (io.read_string (io.read_string m.cin).2).2).2 := by
  simp [SignUp.display, hne, MenuManager.set_menu]

/-- C11 with the password `abc` and the confirmation `xyz`: no user is added, `SignUp`
is active again, the outcome is `Continue`. -/
theorem signup_mismatch_spec_witness :
    (SignUp.display Script.source
      (⟨Menu.SignUp, ⟨none, MenuReturnState.Continue⟩, main_u_list,
        ⟨["eve", "abc", "xyz"], [50], []⟩⟩ : MenuManager (Script Int) Int)).1 =
      MenuReturnState.Continue ∧
    (SignUp.display Script.source
      (⟨Menu.SignUp, ⟨none, MenuReturnState.Continue⟩, main_u_list,
        ⟨["eve", "abc", "xyz"], [50], []⟩⟩ : MenuManager (Script Int) Int)).2.curr_users =
      main_u_list ∧
    (SignUp.display Script.source
      (⟨Menu.SignUp, ⟨none, MenuReturnState.Continue⟩, main_u_list,
        ⟨["eve", "abc", "xyz"], [50], []⟩⟩ : MenuManager (Script Int) Int)).2.menu_type =
      Menu.SignUp := by
  have h := signup_mismatch_spec Script.source
    (⟨Menu.SignUp, ⟨none, MenuReturnState.Continue⟩, main_u_list,
      ⟨["eve", "abc", "xyz"], [50], []⟩⟩ : MenuManager (Script Int) Int) (by decide)
  exact ⟨h.1, h.2.1, h.2.2.2.1⟩

/-- C12: `SignUp::display` when the password and the confirmation read are equal: the
users list afterwards is the one `add_user` yields on the list before for the user
with the username, the password and the initial balance read, so this user is appended
when there is room and the list is unchanged when it is full; in both cases the active
screen becomes `LoginMenu`, the outcome is `Continue` and the session is unchanged. -/
theorem signup_match_spec [AddZeroClass α] [IntCast α] (io : InputSource σ α)
    (m : MenuManager σ α)
    (heq : (io.read_string (io.read_string m.cin).2).1 =
      (io.read_string (io.read_string (io.read_string m.cin).2).2).1) :
    (SignUp.display io m).1 = MenuReturnState.Continue ∧
    (SignUp.display io m).2.curr_users =
      (m.curr_users.add_user
        ⟨(io.read_string m.cin).1, (io.read_string (io.read_string m.cin).2).1,
          (((io.read_int
            (io.read_string (io.read_string (io.read_string m.cin).2).2).2).1 : Int) : α)⟩).2 ∧
    (m.curr_users.users.length < m.curr_users.max_users →
      (SignUp.display io m).2.curr_users.users =
        m.curr_users.users ++
          [⟨(io.read_string m.cin).1, (io.read_string (io.read_string m.cin).2).1,
            (((io.read_int
              (io.read_string (io.read_string (io.read_string m.cin).2).2).2).1 : Int) : α)⟩]) ∧
    (¬ m.curr_users.users.length < m.curr_users.max_users →
      (SignUp.display io m).2.curr_users = m.curr_users) ∧
    (SignUp.display io m).2.menu_type = Menu.LoginMenu ∧
    (SignUp.display io m).2.state_ref = m.state_ref := by
  have hd : SignUp.display io m =
      (MenuReturnState.Continue,
        { m with
          cin := (io.read_int
            (io.read_string (io.read_string (io.read_string m.cin).2).2).2).2
          curr_users := (m.curr_users.add_user
            ⟨(io.read_string m.cin).1, (io.read_string (io.read_string m.cin).2).1,
              (((io.read_int
                (io.read_string (io.read_string (io.read_string m.cin).2).2).2).1 : Int) :
                α)⟩).2
          menu_type := Menu.LoginMenu }) := by
    simp [SignUp.display, heq, MenuManager.set_menu, User.new, User.set_username,
      User.set_userpasswd, User.deposit]
  rw [hd]
  refine ⟨rfl, rfl, ?_, ?_, rfl, rfl⟩
  · intro h
    simp only [add_user_of_lt _ _ h]
  · intro h
    simp only [add_user_of_not_lt _ _ h]

/-- C12 on the application's list with the input `eve`, `pw`, `pw`, 50: `eve` with
balance 50 is appended behind the seed user and `LoginMenu` is active. -/
theorem signup_match_spec_witness :
    (SignUp.display Script.source
      (⟨Menu.SignUp, ⟨none, MenuReturnState.Continue⟩, main_u_list,
        ⟨["eve", "pw", "pw"], [50], []⟩⟩ : MenuManager (Script Int) Int)).2.curr_users.users =
      [⟨"Mohamed", "12345", 2000⟩, ⟨"eve", "pw", 50⟩] ∧
    (SignUp.display Script.source
      (⟨Menu.SignUp, ⟨none, MenuReturnState.Continue⟩, main_u_list,
        ⟨["eve", "pw", "pw"], [50], []⟩⟩ : MenuManager (Script Int) Int)).2.menu_type =
      Menu.LoginMenu := by
  have h := signup_match_spec Script.source
    (⟨Menu.SignUp, ⟨none, MenuReturnState.Continue⟩, main_u_list,
      ⟨["eve", "pw", "pw"], [50], []⟩⟩ : MenuManager (Script Int) Int) (by decide)
  exact ⟨by rw [h.2.2.1 (by decide)]; decide, h.2.2.2.2.1⟩

/-- C13: `UserMenu::display` with a logged-in user `user`, on the selection `query` and
the amount it reads: the outcome is `Continue` for every selection and the users list
is unchanged; selections other than `4` and `5` keep the active screen; selection `2`
with an amount above zero makes the session user `user.withdraw amount`, selection `3`
with an amount above zero makes it `user.deposit amount`; selections `2` and `3` with
an amount at most zero, and every other selection (`1`, `4`, `5` and the unrecognised
ones), leave the session as it was; selection `4` makes `PayPillsMenu` active. -/
theorem usermenu_display_spec [Zero α] [Add α] [Sub α] [Preorder α]
    [DecidableRel (α := α) (· < ·)] (io : InputSource σ α) (m : MenuManager σ α)
    (user : User α) (hu : m.state_ref.curr_user = some user) :
    (UserMenu.display io m).1 = MenuReturnState.Continue ∧
    (UserMenu.display io m).2.curr_users = m.curr_users ∧
    ((io.read_string m.cin).1 ≠ "4" → (io.read_string m.cin).1 ≠ "5" →
      (UserMenu.display io m).2.menu_type = m.menu_type) ∧
    ((io.read_string m.cin).1 = "2" → 0 < (io.read_double (io.read_string m.cin).2).1 →
      (UserMenu.display io m).2.state_ref.curr_user =
        some (user.withdraw (io.read_double (io.read_string m.cin).2).1)) ∧
    ((io.read_string m.cin).1 = "3" → 0 < (io.read_double (io.read_string m.cin).2).1 →
      (UserMenu.display io m).2.state_ref.curr_user =
        some (user.deposit (io.read_double (io.read_string m.cin).2).1)) ∧
    ((io.read_string m.cin).1 = "2" ∨ (io.read_string m.cin).1 = "3" →
      (io.read_double (io.read_string m.cin).2).1 ≤ 0 →
      (UserMenu.display io m).2.state_ref = m.state_ref) ∧
    ((io.read_string m.cin).1 ≠ "2" → (io.read_string m.cin).1 ≠ "3" →
      (UserMenu.display io m).2.state_ref = m.state_ref) ∧
    ((io.read_string m.cin).1 = "4" →
      (UserMenu.display io m).2.menu_type = Menu.PayPillsMenu ∧
      (UserMenu.display io m).2.state_ref = m.state_ref) := by
  have h12 : ("2" : String) ≠ "1" := by decide
  have h13 : ("3" : String) ≠ "1" := by decide
  have h32 : ("3" : String) ≠ "2" := by decide
  have h41 : ("4" : String) ≠ "1" := by decide
  have h42 : ("4" : String) ≠ "2" := by decide
  have h43 : ("4" : String) ≠ "3" := by decide
  unfold UserMenu.display
  rw [hu]
  refine ⟨?_, ?_, ?_, ?_, ?_, ?_, ?_, ?_⟩
  · simp only [MenuManager.set_menu]
    split_ifs <;> rfl
  · simp only [MenuManager.set_menu]
    split_ifs <;> rfl
  · intro h4 h5
    simp only [MenuManager.set_menu, h4, h5, if_false]
    split_ifs <;> rfl
  · intro h2 hv
    simp [h2, h12, hv]
  · intro h3 hv
    simp [h3, h13, h32, hv]
  · rintro (h | h) hv
    · have hv2 : ¬ 0 < (io.read_double (io.read_string m.cin).2).1 := not_lt_of_le hv
      simp [h, h12, hv2]
    · have hv2 : ¬ 0 < (io.read_double (io.read_string m.cin).2).1 := not_lt_of_le hv
      simp [h, h13, h32, hv2]
  · intro h2 h3
    simp only [MenuManager.set_menu, h2, h3, if_false]
    split_ifs <;> rfl
  · intro h4
    simp [h4, h41, h42, h43, MenuManager.set_menu]

/-- C13 with session balance 100, selection `2` and amount 150: the withdrawal is
refused, the balance stays 100 and the outcome is `Continue`. -/
theorem usermenu_display_spec_witness :
    (UserMenu.display Script.source
      (⟨Menu.UserMenu, ⟨some ⟨"bob", "pw1", 100⟩, MenuReturnState.Continue⟩, main_u_list,
        ⟨["2"], [], [150]⟩⟩ : MenuManager (Script Int) Int)).1 = MenuReturnState.Continue ∧
    (UserMenu.display Script.source
      (⟨Menu.UserMenu, ⟨some ⟨"bob", "pw1", 100⟩, MenuReturnState.Continue⟩, main_u_list,
        ⟨["2"], [], [150]⟩⟩ : MenuManager (Script Int) Int)).2.state_ref.curr_user =
      some ⟨"bob", "pw1", 100⟩ := by
  have h := usermenu_display_spec Script.source
    (⟨Menu.UserMenu, ⟨some ⟨"bob", "pw1", 100⟩, MenuReturnState.Continue⟩, main_u_list,
      ⟨["2"], [], [150]⟩⟩ : MenuManager (Script Int) Int) ⟨"bob", "pw1", 100⟩ rfl
  refine ⟨h.1, ?_⟩
  rw [h.2.2.2.1 (by decide) (by decide)]
  decide

/-- C14, the code at the failing input: `UserMenu::display` on the selection `5` with
the seed user logged in returns `Continue` and makes `WelcomeMenu` active, and the
session still holds the user: `curr_user` is not cleared. -/
theorem usermenu_logout_keeps_user (rt : MenuReturnState) :
    UserMenu.display Script.source
      (⟨Menu.UserMenu, ⟨some ⟨"Mohamed", "12345", 2000⟩, rt⟩, main_u_list,
        ⟨["5"], [], []⟩⟩ : MenuManager (Script Int) Int) =
      (MenuReturnState.Continue,
        ⟨Menu.WelcomeMenu, ⟨some ⟨"Mohamed", "12345", 2000⟩, rt⟩, main_u_list,
          ⟨[], [], []⟩⟩) := by
  cases rt <;> decide

/-- C15: `UserMenu::display` with no current user returns `ERROR` and leaves everything
as it was: the session, the users list, the active screen and the input, of which
nothing is read. -/
theorem usermenu_no_user_spec [Zero α] [Add α] [Sub α] [LT α] [DecidableRel (α := α) (· < ·)]
    (io : InputSource σ α) (m : MenuManager σ α) (hnone : m.state_ref.curr_user = none) :
    UserMenu.display io m = (MenuReturnState.ERROR, m) := by
  unfold UserMenu.display
  rw [hnone]

/-- C15 on a state with no current user and the token `1` waiting: the outcome is
`ERROR` and the token is still unread. -/
theorem usermenu_no_user_spec_witness :
    UserMenu.display Script.source
      (⟨Menu.UserMenu, ⟨none, MenuReturnState.Continue⟩, main_u_list,
        ⟨["1"], [], []⟩⟩ : MenuManager (Script Int) Int) =
      (MenuReturnState.ERROR,
        ⟨Menu.UserMenu, ⟨none, MenuReturnState.Continue⟩, main_u_list, ⟨["1"], [], []⟩⟩) :=
  usermenu_no_user_spec Script.source
    (⟨Menu.UserMenu, ⟨none, MenuReturnState.Continue⟩, main_u_list,
      ⟨["1"], [], []⟩⟩ : MenuManager (Script Int) Int) rfl

/-- C17: `PayPillsMenu::display` with a logged-in user `user`, on the selection it
reads: `1` reads a number and an amount and makes the session user
`user.withdraw amount` with no test of the amount (so the balance becomes
`balance - amount` whenever `amount ≤ balance`, negative amounts included, and is
unchanged when `amount > balance`), keeps the screen and returns `Continue`; `4` makes
`UserMenu` active with the session unchanged and returns `Continue`; every other
selection returns `Exit` with session and screen unchanged.  The users list is
unchanged in all cases. -/
theorem paypills_display_spec [Sub α] [Preorder α] [DecidableRel (α := α) (· < ·)]
    (io : InputSource σ α) (m : MenuManager σ α) (user : User α)
    (hu : m.state_ref.curr_user = some user) :
    ((io.read_string m.cin).1 = "1" →
      PayPillsMenu.display io m =
        some (MenuReturnState.Continue,
          { m with
            cin := (io.read_double (io.read_string (io.read_string m.cin).2).2).2
            state_ref :=
              { m.state_ref with
                curr_user := some (user.withdraw
                  (io.read_double (io.read_string (io.read_string m.cin).2).2).1) } }) ∧
      ((io.read_double (io.read_string (io.read_string m.cin).2).2).1 ≤ user.balance →
        (user.withdraw (io.read_double (io.read_string (io.read_string m.cin).2).2).1) =
          { user with
            balance := user.balance -
              (io.read_double (io.read_string (io.read_string m.cin).2).2).1 }) ∧
      ((io.read_double (io.read_string (io.read_string m.cin).2).2).1 > user.balance →
        user.withdraw (io.read_double (io.read_string (io.read_string m.cin).2).2).1 =
          user)) ∧
    ((io.read_string m.cin).1 = "4" →
      PayPillsMenu.display io m =
        some (MenuReturnState.Continue,
          { m with cin := (io.read_string m.cin).2, menu_type := Menu.UserMenu })) ∧
    ((io.read_string m.cin).1 ≠ "1" → (io.read_string m.cin).1 ≠ "4" →
      PayPillsMenu.display io m =
        some (MenuReturnState.Exit, { m with cin := (io.read_string m.cin).2 })) := by
  have h41 : ("4" : String) ≠ "1" := by decide
  unfold PayPillsMenu.display
  rw [hu]
  refine ⟨?_, ?_, ?_⟩
  · intro h1
    refine ⟨by simp [h1], ?_, ?_⟩
    · intro hle
      have hn : ¬ (io.read_double (io.read_string (io.read_string m.cin).2).2).1 >
          user.balance := not_lt_of_le hle
      simp [User.withdraw, hn]
    · intro hgt
      simp [User.withdraw, hgt]
  · intro h4
    simp [h4, h41, MenuManager.set_menu]
  · intro h1 h4
    simp [h1, h4]

/-- C17 with session balance 100: selection `1` with the amount -50 makes the balance
`100 - (-50)`, selection `2`, though displayed as an option, returns `Exit`. -/
theorem paypills_display_spec_witness :
    PayPillsMenu.display Script.source
      (⟨Menu.PayPillsMenu, ⟨some ⟨"bob", "pw1", 100⟩, MenuReturnState.Continue⟩,
        main_u_list, ⟨["1", "0100"], [], [-50]⟩⟩ : MenuManager (Script Int) Int) =
      some (MenuReturnState.Continue,
        ⟨Menu.PayPillsMenu, ⟨some ⟨"bob", "pw1", 150⟩, MenuReturnState.Continue⟩,
          main_u_list, ⟨[], [], []⟩⟩) ∧
    PayPillsMenu.display Script.source
      (⟨Menu.PayPillsMenu, ⟨some ⟨"bob", "pw1", 100⟩, MenuReturnState.Continue⟩,
        main_u_list, ⟨["2"], [], []⟩⟩ : MenuManager (Script Int) Int) =
      some (MenuReturnState.Exit,
        ⟨Menu.PayPillsMenu, ⟨some ⟨"bob", "pw1", 100⟩, MenuReturnState.Continue⟩,
          main_u_list, ⟨[], [], []⟩⟩) := by
  have h1 := (paypills_display_spec Script.source
    (⟨Menu.PayPillsMenu, ⟨some ⟨"bob", "pw1", 100⟩, MenuReturnState.Continue⟩,
      main_u_list, ⟨["1", "0100"], [], [-50]⟩⟩ : MenuManager (Script Int) Int)
    ⟨"bob", "pw1", 100⟩ rfl).1 (by decide)
  have h2 := (paypills_display_spec Script.source
    (⟨Menu.PayPillsMenu, ⟨some ⟨"bob", "pw1", 100⟩, MenuReturnState.Continue⟩,
      main_u_list, ⟨["2"], [], []⟩⟩ : MenuManager (Script Int) Int)
    ⟨"bob", "pw1", 100⟩ rfl).2.2 (by decide) (by decide)
  refine ⟨?_, ?_⟩
  · rw [h1.1]
    decide
  · rw [h2]
    decide

/-- C19: `check_credentials` is true exactly when the usernames are equal and the
passwords are equal (equal usernames with different passwords do not match); neither
balance plays a part; and it agrees with `operator==` on every pair of users. -/
theorem check_credentials_spec (u v : User α) :
    (u.check_credentials v = true ↔ u.username = v.username ∧ u.password = v.password) ∧
    (u.username = v.username → u.password ≠ v.password → u.check_credentials v = false) ∧
    (∀ b1 b2 : α,
      ({ u with balance := b1 } : User α).check_credentials { v with balance := b2 } =
        u.check_credentials v) ∧
    u.check_credentials v = u.operator_eq v := by
  refine ⟨by simp [User.check_credentials], ?_, fun _ _ => rfl, rfl⟩
  intro _ hp
  simp [User.check_credentials, hp]

/-- C19 on `bob` / `pw1` against `bob` / `pw2`: the usernames agree, the passwords do
not, and the credentials do not match. -/
theorem check_credentials_spec_witness :
    (⟨"bob", "pw1", 10⟩ : User Int).check_credentials ⟨"bob", "pw2", 10⟩ = false :=
  (check_credentials_spec (⟨"bob", "pw1", 10⟩ : User Int) ⟨"bob", "pw2", 10⟩).2.1 rfl
    (by decide)

/-- C18: every `UserMenu` step and every `PayPillsMenu` step leaves the users list
unchanged.  Hence: after a login that finds the stored user `u` and returns, any `n`
iterations of the loop on `UserMenu` and `PayPillsMenu` the last of which leaves
`WelcomeMenu` active (the logout), the selection `L` or `l`, and a second login with
the username and password of the first, the users list is the one of the first login
and the session user is `u` again, with the balance stored in the list, whatever the
session balance had become.  The second login returns when its banner fits the
terminal then, and that is its state whenever it returns. -/
theorem session_changes_not_stored [Zero α] [Add α] [Sub α] [IntCast α] [LT α]
    [DecidableRel (α := α) (· < ·)] (io : InputSource σ α) (m0 m2 : MenuManager σ α)
    (r1 : MenuReturnState × MenuManager σ α) (u : User α) (n : Nat) :
    (∀ m : MenuManager σ α, (UserMenu.display io m).2.curr_users = m.curr_users) ∧
    (∀ (m : MenuManager σ α) (r : MenuReturnState × MenuManager σ α),
      PayPillsMenu.display io m = some r → r.2.curr_users = m.curr_users) ∧
    (m0.curr_users.search_users
        ⟨(io.read_string m0.cin).1, (io.read_string (io.read_string m0.cin).2).1, 0⟩ =
        some u →
      LoginMenu.display io m0 = some r1 →
      MenuManager.session_steps io n r1.2 = some m2 →
      m2.menu_type = Menu.WelcomeMenu →
      ((io.read_string m2.cin).1 = "L" ∨ (io.read_string m2.cin).1 = "l") →
      (io.read_string (WelcomeMenu.display io m2).2.cin).1 = (io.read_string m0.cin).1 →
      (io.read_string (io.read_string (WelcomeMenu.display io m2).2.cin).2).1 =
        (io.read_string (io.read_string m0.cin).2).1 →
      r1.2.state_ref.curr_user = some u ∧
      m2.curr_users = m0.curr_users ∧
      (WelcomeMenu.display io m2).2.menu_type = Menu.LoginMenu ∧
      (printBanner
          (io.terminal_width
            (io.read_string (io.read_string (WelcomeMenu.display io m2).2.cin).2).2)
          ("Welcome " ++ u.username) = true →
        ∃ r2, LoginMenu.display io (WelcomeMenu.display io m2).2 = some r2) ∧
      (∀ r2, LoginMenu.display io (WelcomeMenu.display io m2).2 = some r2 →
        r2.1 = MenuReturnState.Continue ∧
        r2.2.menu_type = Menu.UserMenu ∧
        r2.2.state_ref.curr_user = some u ∧
        r2.2.curr_users = m0.curr_users)) := by
  refine ⟨usermenu_display_users io, paypills_display_users io, ?_⟩
  intro hfound hlogin hsteps _ hl hname hpw
  have h1 : r1 = (MenuReturnState.Continue,
      { m0 with
        cin := (io.read_string (io.read_string m0.cin).2).2
        state_ref := { m0.state_ref with curr_user := some u }
        menu_type := Menu.UserMenu }) := by
    rcases login_display_some io m0 r1 hlogin with ⟨u2, hs, hr⟩ | ⟨hs, _⟩
    · rw [hfound] at hs
      rw [hr, ← Option.some.inj hs]
    · rw [hfound] at hs
      cases hs
  have husers : m2.curr_users = m0.curr_users := by
    rw [session_steps_users io n _ m2 hsteps, h1]
  have hw := welcome_display_login io m2 hl
  have hfound2 : (WelcomeMenu.display io m2).2.curr_users.search_users
      ⟨(io.read_string (WelcomeMenu.display io m2).2.cin).1,
        (io.read_string (io.read_string (WelcomeMenu.display io m2).2.cin).2).1, 0⟩ =
      some u := by
    rw [hname, hpw, welcome_display_users, husers]
    exact hfound
  refine ⟨by rw [h1], husers, by rw [hw], ?_, ?_⟩
  · intro hb
    exact ⟨_, login_display_of_found io (WelcomeMenu.display io m2).2 u hfound2 hb⟩
  · intro r2 hr2
    rcases login_display_some io _ r2 hr2 with ⟨u2, hs, hr⟩ | ⟨hs, _⟩
    · rw [hfound2] at hs
      rw [hr, ← Option.some.inj hs]
      refine ⟨rfl, rfl, rfl, ?_⟩
      simp only
      rw [welcome_display_users, husers]
    · rw [hfound2] at hs
      cases hs

/-- C18 on the application's list: `Mohamed` logs in with balance 2000, deposits 500,
pays 100 on the PayPills screen, returns and logs out; the session balance is then
2400, and after the second login it is the stored 2000 again. -/
theorem session_changes_not_stored_witness :
    MenuManager.session_steps Script.source 5
      (⟨Menu.UserMenu, ⟨some ⟨"Mohamed", "12345", 2000⟩, MenuReturnState.Continue⟩,
        main_u_list,
        ⟨["3", "4", "1", "0100", "4", "5", "l", "Mohamed", "12345"], [], [500, 100]⟩⟩ :
        MenuManager (Script Int) Int) =
      some ⟨Menu.WelcomeMenu, ⟨some ⟨"Mohamed", "12345", 2400⟩, MenuReturnState.Continue⟩,
        main_u_list, ⟨["l", "Mohamed", "12345"], [], []⟩⟩ ∧
    ∃ r2, LoginMenu.display Script.source
        (WelcomeMenu.display Script.source
          (⟨Menu.WelcomeMenu, ⟨some ⟨"Mohamed", "12345", 2400⟩, MenuReturnState.Continue⟩,
            main_u_list, ⟨["l", "Mohamed", "12345"], [], []⟩⟩ :
            MenuManager (Script Int) Int)).2 = some r2 ∧
      r2.2.state_ref.curr_user = some ⟨"Mohamed", "12345", 2000⟩ := by
  have h := (session_changes_not_stored Script.source
    (⟨Menu.LoginMenu, ⟨none, MenuReturnState.Continue⟩, main_u_list,
      ⟨["Mohamed", "12345", "3", "4", "1", "0100", "4", "5", "l", "Mohamed", "12345"],
        [], [500, 100]⟩⟩ : MenuManager (Script Int) Int)
    ⟨Menu.WelcomeMenu, ⟨some ⟨"Mohamed", "12345", 2400⟩, MenuReturnState.Continue⟩,
      main_u_list, ⟨["l", "Mohamed", "12345"], [], []⟩⟩
    (MenuReturnState.Continue,
      ⟨Menu.UserMenu, ⟨some ⟨"Mohamed", "12345", 2000⟩, MenuReturnState.Continue⟩,
        main_u_list,
        ⟨["3", "4", "1", "0100", "4", "5", "l", "Mohamed", "12345"], [], [500, 100]⟩⟩)
    ⟨"Mohamed", "12345", 2000⟩ 5).2.2 (by decide) (by decide) (by decide) rfl
    (Or.inr (by decide)) (by decide) (by decide)
  obtain ⟨r2, hr2⟩ := h.2.2.2.1 (by decide)
  exact ⟨by decide, r2, hr2, (h.2.2.2.2 r2 hr2).2.2.1⟩

/-- C20, the code at the failing input: the application starts and reads `s`, then on
the SignUp screen `eve`, `pw`, `pw` and the initial balance -5, then on the Login
screen `eve`, `pw`, then `4` and `9`.  `run_menu` returns `Exit` in a state whose users
list holds `eve` with balance -5 and whose session user has balance -5. -/
theorem main_reaches_negative_balance (rt : MenuReturnState) :
    main Script.source 5 rt
      (⟨["s", "eve", "pw", "pw", "eve", "pw", "4", "9"], [-5], []⟩ : Script Int) =
      some (MenuReturnState.Exit,
        ⟨Menu.PayPillsMenu, ⟨some ⟨"eve", "pw", -5⟩, rt⟩,
          ⟨[⟨"Mohamed", "12345", 2000⟩, ⟨"eve", "pw", -5⟩], 20⟩, ⟨[], [], []⟩⟩) := by
  cases rt <;> decide

/-- C21 as stated fails: on a user with balance 100, which is at least zero, the
amount NaN passes the test `amount > balance` (it is false) and the balance becomes
`100 - NaN`, which is NaN and not at least zero; likewise the amount plus infinity on a
balance of plus infinity. -/
theorem withdraw_nan_counterexample :
    (0 : Double) ≤ (⟨"bob", "pw1", Double.num 100⟩ : User Double).balance ∧
    ((⟨"bob", "pw1", Double.num 100⟩ : User Double).withdraw Double.nan).balance =
      Double.nan ∧
    ¬ (0 : Double) ≤
      ((⟨"bob", "pw1", Double.num 100⟩ : User Double).withdraw Double.nan).balance ∧
    (0 : Double) ≤ (⟨"bob", "pw1", Double.pinf⟩ : User Double).balance ∧
    ¬ (0 : Double) ≤
      ((⟨"bob", "pw1", Double.pinf⟩ : User Double).withdraw Double.pinf).balance := by
  refine ⟨?_, ?_, ?_, ?_, ?_⟩
  · show Double.le (Double.num 0) (Double.num 100) = true
    simp [Double.le]
  · rfl
  · show ¬ Double.le (Double.num 0) Double.nan = true
    simp [Double.le]
  · rfl
  · show ¬ Double.le (Double.num 0) Double.nan = true
    simp [Double.le]

/-- C21, amended: `withdraw` never takes a balance below zero when the amount is not
NaN: for every user with balance at least zero and every amount other than NaN,
positive, zero or negative, infinite ones included unless amount and balance are both
plus infinity, the balance after `withdraw(amount)` is at least zero. -/
theorem withdraw_nonneg_unless_nan (u : User Double) (amount : Double)
    (h : 0 ≤ u.balance) (hnan : amount ≠ Double.nan)
    (hinf : ¬ (amount = Double.pinf ∧ u.balance = Double.pinf)) :
    0 ≤ (u.withdraw amount).balance := by
  obtain ⟨name, pw, balance⟩ := u
  have h2 : Double.le (Double.num 0) balance = true := h
  show Double.le (Double.num 0)
    (User.withdraw ⟨name, pw, balance⟩ amount).balance = true
  unfold User.withdraw
  have hgt : ∀ a b : Double, (a > b) = (Double.lt b a = true) := fun _ _ => rfl
  have hsub : ∀ a b : Double, a - b = Double.sub a b := fun _ _ => rfl
  simp only [hgt, hsub]
  cases balance with
  | nan => simp [Double.le] at h2
  | ninf => simp [Double.le] at h2
  | pinf =>
    cases amount with
    | nan => exact absurd rfl hnan
    | pinf => exact absurd ⟨rfl, rfl⟩ hinf
    | ninf => simp [Double.lt, Double.sub, Double.le]
    | num a => simp [Double.lt, Double.sub, Double.le]
  | num b =>
    have hb : (0 : ℚ) ≤ b := by simpa [Double.le] using h2
    cases amount with
    | nan => exact absurd rfl hnan
    | pinf => simpa [Double.lt, Double.sub, Double.le] using hb
    | ninf => simp [Double.lt, Double.sub, Double.le]
    | num a =>
      by_cases hab : b < a
      · simpa [Double.lt, Double.sub, Double.le, hab] using hb
      · simpa [Double.lt, Double.sub, Double.le, hab] using not_lt.1 hab

/-- C21, amended, at balance 100: after withdrawing 150, 30, -20 or minus infinity the
balance is at least zero. -/
theorem withdraw_nonneg_unless_nan_witness :
    (0 : Double) ≤
      ((⟨"bob", "pw1", Double.num 100⟩ : User Double).withdraw (Double.num 150)).balance ∧
    (0 : Double) ≤
      ((⟨"bob", "pw1", Double.num 100⟩ : User Double).withdraw (Double.num 30)).balance ∧
    (0 : Double) ≤
      ((⟨"bob", "pw1", Double.num 100⟩ : User Double).withdraw (Double.num (-20))).balance ∧
    (0 : Double) ≤
      ((⟨"bob", "pw1", Double.num 100⟩ : User Double).withdraw Double.ninf).balance := by
  have h0 : (0 : Double) ≤ (⟨"bob", "pw1", Double.num 100⟩ : User Double).balance := by
    show Double.le (Double.num 0) (Double.num 100) = true
    simp [Double.le]
  exact ⟨withdraw_nonneg_unless_nan _ (Double.num 150) h0 (by simp) (by simp),
    withdraw_nonneg_unless_nan _ (Double.num 30) h0 (by simp) (by simp),
    withdraw_nonneg_unless_nan _ (Double.num (-20)) h0 (by simp) (by simp),
    withdraw_nonneg_unless_nan _ Double.ninf h0 (by simp) (by simp)⟩

/-- C22 as stated fails: whatever value `rt_state` starts with, there is a screen step
after which it differs from the outcome the step returned.  With `Continue` or `ERROR`
in it, the Welcome screen on `q` returns `Exit`; with `Exit` in it, the Welcome screen
on `l` returns `Continue`; `rt_state` is as before each time. -/
theorem rt_state_not_outcome_counterexample :
    Menu.display Script.source
      (⟨Menu.WelcomeMenu, ⟨none, MenuReturnState.Continue⟩, main_u_list,
        ⟨["q"], [], []⟩⟩ : MenuManager (Script Int) Int) =
      some (MenuReturnState.Exit,
        ⟨Menu.WelcomeMenu, ⟨none, MenuReturnState.Continue⟩, main_u_list, ⟨[], [], []⟩⟩) ∧
    Menu.display Script.source
      (⟨Menu.WelcomeMenu, ⟨none, MenuReturnState.ERROR⟩, main_u_list,
        ⟨["q"], [], []⟩⟩ : MenuManager (Script Int) Int) =
      some (MenuReturnState.Exit,
        ⟨Menu.WelcomeMenu, ⟨none, MenuReturnState.ERROR⟩, main_u_list, ⟨[], [], []⟩⟩) ∧
    Menu.display Script.source
      (⟨Menu.WelcomeMenu, ⟨none, MenuReturnState.Exit⟩, main_u_list,
        ⟨["l"], [], []⟩⟩ : MenuManager (Script Int) Int) =
      some (MenuReturnState.Continue,
        ⟨Menu.LoginMenu, ⟨none, MenuReturnState.Exit⟩, main_u_list, ⟨[], [], []⟩⟩) := by
  decide

/-- C22, amended: no screen step writes `rt_state`: after every `display` call the loop
makes, and so after any number of them, the session's `rt_state` is what it was
before, whatever outcome was returned. -/
theorem rt_state_never_written [Zero α] [Add α] [Sub α] [IntCast α] [LT α]
    [DecidableRel (α := α) (· < ·)] (io : InputSource σ α) (m : MenuManager σ α) :
    (∀ r, Menu.display io m = some r → r.2.state_ref.rt_state = m.state_ref.rt_state) ∧
    (∀ n m2, MenuManager.steps io n m = some m2 →
      m2.state_ref.rt_state = m.state_ref.rt_state) :=
  ⟨fun r h => display_rt_state io m r h, fun n m2 h => steps_rt_state io n m m2 h⟩

/-- C22, amended, on the application's start with `rt_state` holding `ERROR`: after the
steps on `l`, `Mohamed`, `12345` and `1` the value is still `ERROR`. -/
theorem rt_state_never_written_witness :
    ∃ m2, MenuManager.steps Script.source 3
        (MenuManager.new ⟨none, MenuReturnState.ERROR⟩ main_u_list
          (⟨["l", "Mohamed", "12345", "1"], [], []⟩ : Script Int)) = some m2 ∧
      m2.menu_type = Menu.UserMenu ∧
      m2.state_ref.rt_state = MenuReturnState.ERROR :=
  ⟨⟨Menu.UserMenu, ⟨some ⟨"Mohamed", "12345", 2000⟩, MenuReturnState.ERROR⟩, main_u_list,
      ⟨[], [], []⟩⟩, by decide, rfl,
    (rt_state_never_written Script.source
      (MenuManager.new ⟨none, MenuReturnState.ERROR⟩ main_u_list
        (⟨["l", "Mohamed", "12345", "1"], [], []⟩ : Script Int))).2 3 _ (by decide)⟩

/-- C23: from a state with `WelcomeMenu` active and no current user, in every state
that any number `n` of `display` calls made one after the other leads to, the current
user is present whenever `UserMenu` or `PayPillsMenu` is active; so in such a state the
unchecked access of `PayPillsMenu::display` has a user to refer to (its call is
defined) and `UserMenu::display` does not take its no-user branch (it returns
`Continue`, not `ERROR`).  The calls themselves never run into an empty session: when
the `n` calls do not all return, it is a `LoginMenu::display` call that does not (its
banner throws). -/
theorem user_screens_have_session [Zero α] [Add α] [Sub α] [IntCast α] [LT α]
    [DecidableRel (α := α) (· < ·)] (io : InputSource σ α) (m0 : MenuManager σ α) (n : Nat)
    (hscreen : m0.menu_type = Menu.WelcomeMenu) (_hempty : m0.state_ref.curr_user = none) :
    (∀ m, MenuManager.steps io n m0 = some m →
      (m.menu_type = Menu.UserMenu ∨ m.menu_type = Menu.PayPillsMenu →
        ∃ u, m.state_ref.curr_user = some u) ∧
      (m.menu_type = Menu.PayPillsMenu → ∃ r, PayPillsMenu.display io m = some r) ∧
      (m.menu_type = Menu.UserMenu →
        (UserMenu.display io m).1 = MenuReturnState.Continue)) ∧
    (MenuManager.steps io n m0 = none →
      ∃ k mk, k < n ∧ MenuManager.steps io k m0 = some mk ∧
        mk.menu_type = Menu.LoginMenu ∧ LoginMenu.display io mk = none) := by
  have h0 : m0.menu_type = Menu.UserMenu ∨ m0.menu_type = Menu.PayPillsMenu →
      ∃ u, m0.state_ref.curr_user = some u := by
    rw [hscreen]
    simp
  refine ⟨?_, fun hnone => steps_none_at_login io n m0 hnone h0⟩
  intro m hm
  have hinv := steps_user_present io n m0 m hm h0
  refine ⟨hinv, ?_, ?_⟩
  · intro hp
    obtain ⟨u, hu⟩ := hinv (Or.inr hp)
    obtain ⟨r, hr, _⟩ := paypills_display_of_user io m u hu
    exact ⟨r, hr⟩
  · intro hp
    obtain ⟨u, hu⟩ := hinv (Or.inl hp)
    exact (usermenu_display_of_user io m u hu).1

/-- C23 on the application's start with the input `l`, `Mohamed`, `12345`, `4`: after
three steps `PayPillsMenu` is active and the current user is present. -/
theorem user_screens_have_session_witness :
    MenuManager.steps Script.source 3
        (MenuManager.new ⟨none, MenuReturnState.Continue⟩ main_u_list
          (⟨["l", "Mohamed", "12345", "4"], [], []⟩ : Script Int)) =
      some ⟨Menu.PayPillsMenu, ⟨some ⟨"Mohamed", "12345", 2000⟩, MenuReturnState.Continue⟩,
        main_u_list, ⟨[], [], []⟩⟩ ∧
    ∃ r, PayPillsMenu.display Script.source
      (⟨Menu.PayPillsMenu, ⟨some ⟨"Mohamed", "12345", 2000⟩, MenuReturnState.Continue⟩,
        main_u_list, ⟨[], [], []⟩⟩ : MenuManager (Script Int) Int) = some r :=
  ⟨by decide,
    ((user_screens_have_session Script.source
      (MenuManager.new ⟨none, MenuReturnState.Continue⟩ main_u_list
        (⟨["l", "Mohamed", "12345", "4"], [], []⟩ : Script Int)) 3 rfl rfl).1
      ⟨Menu.PayPillsMenu, ⟨some ⟨"Mohamed", "12345", 2000⟩, MenuReturnState.Continue⟩,
        main_u_list, ⟨[], [], []⟩⟩ (by decide)).2.1 rfl⟩

/-- C24: from a state with no current user, in every state that any number `n` of
`display` calls leads to: when the current user `u` is present, `search_users` on the
current users list with `u` (or any candidate with `u`'s username and password) returns
a stored user with that username and password.  The users list of the start is an
initial part of the current one (the list only grows at its end), and `deposit` and
`withdraw` keep username and password. -/
theorem session_user_is_stored [Zero α] [Add α] [Sub α] [IntCast α] [LT α]
    [DecidableRel (α := α) (· < ·)] (io : InputSource σ α) (m0 m : MenuManager σ α)
    (n : Nat) (hempty : m0.state_ref.curr_user = none)
    (hsteps : MenuManager.steps io n m0 = some m) :
    (∀ u, m.state_ref.curr_user = some u →
      ∃ v, m.curr_users.search_users u = some v ∧ v ∈ m.curr_users.users ∧
        v.username = u.username ∧ v.password = u.password ∧
        ∀ c : User α, c.username = u.username → c.password = u.password →
          m.curr_users.search_users c = some v) ∧
    (∃ more, m.curr_users.users = m0.curr_users.users ++ more) ∧
    (∀ (u : User α) (amount : α),
      (u.deposit amount).username = u.username ∧
      (u.deposit amount).password = u.password ∧
      (u.withdraw amount).username = u.username ∧
      (u.withdraw amount).password = u.password) := by
  have h0 : ∀ u, m0.state_ref.curr_user = some u →
      ∃ v, m0.curr_users.search_users u = some v := by
    intro u hu
    rw [hempty] at hu
    cases hu
  refine ⟨?_, steps_users_append io n m0 m hsteps,
    fun u amount => ⟨rfl, rfl, withdraw_username u amount, withdraw_password u amount⟩⟩
  intro u hu
  obtain ⟨v, hv⟩ := steps_session_stored io n m0 m hsteps h0 u hu
  obtain ⟨hmem, h1, h2⟩ := search_users_result_credentials _ _ _ hv
  refine ⟨v, hv, hmem, h1, h2, ?_⟩
  intro c hc1 hc2
  rw [search_users_of_same_credentials m.curr_users u c hc1 hc2]
  exact hv

/-- C24 on the application's start: after sign-up of `eve`, her login and a deposit of
25, the session user `eve` with balance 75 is found in the list, stored with balance
50. -/
theorem session_user_is_stored_witness :
    ∃ v, (UsersList.mk [⟨"Mohamed", "12345", 2000⟩, ⟨"eve", "pw", 50⟩] 20 :
        UsersList Int).search_users ⟨"eve", "pw", 75⟩ = some v ∧
      v.username = "eve" ∧ v.password = "pw" := by
  obtain ⟨v, hv, _, h1, h2, _⟩ := (session_user_is_stored Script.source
    (MenuManager.new ⟨none, MenuReturnState.Continue⟩ main_u_list
      (⟨["s", "eve", "pw", "pw", "eve", "pw", "3"], [50], [25]⟩ : Script Int))
    ⟨Menu.UserMenu, ⟨some ⟨"eve", "pw", 75⟩, MenuReturnState.Continue⟩,
      ⟨[⟨"Mohamed", "12345", 2000⟩, ⟨"eve", "pw", 50⟩], 20⟩, ⟨[], [], []⟩⟩
    4 rfl (by decide)).1 ⟨"eve", "pw", 75⟩ rfl
  exact ⟨v, hv, h1, h2⟩

/-- C25: lookup is stable under `add_user`: if `search_users c` returns `u` on `d`, it
returns the same `u` after `add_user v`; if it returned empty on `d`, then after
`add_user v` it returns `v` when the call succeeded and `v`'s username and password
equal `c`'s, and empty otherwise.  When a stored user already has `v`'s username and
password, every lookup after `add_user v` returns a user stored in `d` before the call,
at its position there, and never the entry at the position `v` was added at. -/
theorem search_users_add_user (d : UsersList α) (c v : User α) :
    (∀ u, d.search_users c = some u → (d.add_user v).2.search_users c = some u) ∧
    (d.search_users c = none →
      ((d.add_user v).1 = true ∧ v.username = c.username ∧ v.password = c.password →
        (d.add_user v).2.search_users c = some v) ∧
      (¬ ((d.add_user v).1 = true ∧ v.username = c.username ∧ v.password = c.password) →
        (d.add_user v).2.search_users c = none)) ∧
    ((∃ w ∈ d.users, w.username = v.username ∧ w.password = v.password) →
      ∀ c2 r, (d.add_user v).2.search_users c2 = some r →
        d.search_users c2 = some r ∧
        ∃ i : Nat, i < d.users.length ∧ d.users[i]? = some r) := by
  refine ⟨fun u h => search_users_add_user_of_some d c u v h, ?_, ?_⟩
  · intro hnone
    by_cases hlt : d.users.length < d.max_users
    · rw [add_user_of_lt d v hlt]
      simp only [UsersList.search_users] at hnone ⊢
      rw [search_loop_append_of_none c d.users [v] hnone]
      by_cases hv : v.operator_eq c = true
      · have hv2 := (operator_eq_iff v c).1 hv
        simp [UsersList.search_loop, hv, hv2]
      · have hv2 : ¬ (v.username = c.username ∧ v.password = c.password) :=
          fun h => hv ((operator_eq_iff v c).2 h)
        simp [UsersList.search_loop, hv, hv2]
    · rw [add_user_of_not_lt d v hlt]
      simp [hnone]
  · rintro ⟨w, hw, hw1, hw2⟩ c2 r hr
    have hold : d.search_users c2 = some r := by
      cases hs : d.search_users c2 with
      | some u =>
        rw [search_users_add_user_of_some d c2 u v hs] at hr
        exact hr
      | none =>
        exfalso
        obtain ⟨_, h1, h2⟩ := search_users_result_credentials _ _ _ hr
        by_cases hlt : d.users.length < d.max_users
        · rw [add_user_of_lt d v hlt] at hr
          simp only [UsersList.search_users] at hs hr
          rw [search_loop_append_of_none c2 d.users [v] hs] at hr
          by_cases hv : v.operator_eq c2 = true
          · have hv2 := (operator_eq_iff v c2).1 hv
            exact (search_loop_eq_none c2 d.users).1 hs w hw
              ⟨hw1.trans hv2.1, hw2.trans hv2.2⟩
          · simp [UsersList.search_loop, hv] at hr
        · rw [add_user_of_not_lt d v hlt, hs] at hr
          cases hr
    refine ⟨hold, ?_⟩
    obtain ⟨i, hi, _⟩ := (search_loop_eq_some c2 r d.users).1 hold
    refine ⟨i, ?_, hi⟩
    by_contra hge
    rw [List.getElem?_eq_none (by omega)] at hi
    cases hi

/-- C25 on a list holding `bob` / `pw1` with balance 10: after `add_user` of `bob` /
`pw1` with balance 20 the lookup still returns the one with balance 10; after
`add_user` of `eve` / `pw2`, not found before, the lookup for her returns her. -/
theorem search_users_add_user_witness :
    ((UsersList.mk [⟨"bob", "pw1", (10 : Int)⟩] 5).add_user
      ⟨"bob", "pw1", 20⟩).2.search_users ⟨"bob", "pw1", 0⟩ = some ⟨"bob", "pw1", 10⟩ ∧
    ((UsersList.mk [⟨"bob", "pw1", (10 : Int)⟩] 5).add_user
      ⟨"eve", "pw2", 20⟩).2.search_users ⟨"eve", "pw2", 0⟩ = some ⟨"eve", "pw2", 20⟩ :=
  ⟨(search_users_add_user (UsersList.mk [⟨"bob", "pw1", (10 : Int)⟩] 5) ⟨"bob", "pw1", 0⟩
      ⟨"bob", "pw1", 20⟩).1 ⟨"bob", "pw1", 10⟩ (by decide),
    ((search_users_add_user (UsersList.mk [⟨"bob", "pw1", (10 : Int)⟩] 5)
      ⟨"eve", "pw2", 0⟩ ⟨"eve", "pw2", 20⟩).2.1 (by decide)).1
      ⟨by decide, rfl, rfl⟩⟩

/-- C26, the code at the failing input: on the application's list, which has room, and
a terminal of 80 columns, the `SignUp` step reads a username of 69 characters, `pw`,
`pw` and the initial balance 50: the user is appended and `LoginMenu` is active.  The
`LoginMenu` step that reads the same username and password finds the user and does not
return: `printBanner` throws on the banner text, so `UserMenu` is never made active. -/
theorem signup_then_login_long_username_throws (rt : MenuReturnState) :
    SignUp.display Script.source
      (⟨Menu.SignUp, ⟨none, rt⟩, main_u_list,
        ⟨["a_username_of_sixty_nine_characters_is_too_wide_for_the_login_banner_", "pw", "pw",
          "a_username_of_sixty_nine_characters_is_too_wide_for_the_login_banner_", "pw"], [50],
          []⟩⟩ : MenuManager (Script Int) Int) =
      (MenuReturnState.Continue,
        ⟨Menu.LoginMenu, ⟨none, rt⟩,
          ⟨[⟨"Mohamed", "12345", 2000⟩,
            ⟨"a_username_of_sixty_nine_characters_is_too_wide_for_the_login_banner_", "pw", 50⟩], 20⟩,
          ⟨["a_username_of_sixty_nine_characters_is_too_wide_for_the_login_banner_", "pw"], [],
            []⟩⟩) ∧
    LoginMenu.display Script.source
      (⟨Menu.LoginMenu, ⟨none, rt⟩,
        ⟨[⟨"Mohamed", "12345", 2000⟩,
          ⟨"a_username_of_sixty_nine_characters_is_too_wide_for_the_login_banner_", "pw", 50⟩], 20⟩,
        ⟨["a_username_of_sixty_nine_characters_is_too_wide_for_the_login_banner_", "pw"], [],
          []⟩⟩ : MenuManager (Script Int) Int) = none := by
  cases rt <;> decide

end DigitalWallet
